import Mathlib

/-!
Inference orchestrator (`source/deploy/vision/inference.cpp`).

A shallow embedding of the result decoders (`BaseTemplate<T>::postProcess`), of the
direct execution engine (`DeployTemplate<T>`) and of the graph-replay engine
(`DeployCGTemplate<T>`).

Conventions of the embedding.

* `float` is a type parameter `F`: the decoders only move floats around, the arithmetic on
  them lives in `TransformMatrix` and in the warp kernel, which are collaborators.
* C++ integers are `Int`.  The byte sizes of images, which the code computes and sums in
  `int`, wrap as 32-bit values (`toInt32`), and a size handed to `memcpy` or to an
  allocation is converted to `size_t` (`toSizeT`).  Counts, extents of tensors, the size
  `3 * height * width` of the model input and indices are taken inside the range of `int`,
  where the conversions the code performs (`int numImages = images.size()`) are exact.
* A memory region is seen through the pointer types the code casts it to.
* Everything the code calls but that is not defined in `inference.cpp` (the transform
  matrix, the memory manager, the warp kernel, the execution context, the CUDA graph) is a
  field of `Externals`.
* Calls issued to the accelerator and to the engine are recorded, in order, in the field
  `issued` of the two engine states.  Output to `std::cerr` is not recorded.
-/

namespace deploy

/-! ## Data model -/

/-- The value of an `int` expression whose exact result is `x`: the 32-bit two's-complement
wrap. -/
def toInt32 (x : Int) : Int := (x + 2147483648) % 4294967296 - 2147483648

/-- The conversion of an integer to `size_t` (64 bits). -/
def toSizeT (x : Int) : Int := x % 18446744073709551616

/-- Shape of a tensor, as `nvinfer1::Dims`: a count and a fixed array of extents. -/
structure Dims where
  nbDims : Nat
  d : Nat → Int

/-- The statement `dims.d[0] = n`. -/
def Dims.setBatch (dims : Dims) (n : Int) : Dims :=
  { dims with d := fun i => if i = 0 then n else dims.d i }

/-- Modelled from the spec: `calculateVolume` of `deploy/utils/utils.hpp`, the product of the
`nbDims` extents of a shape ("Byte size = volume(shape) × element width"). -/
def calculateVolume (dims : Dims) : Int :=
  ((List.range dims.nbDims).map dims.d).prod

/-- A memory region seen through `static_cast<int*>`, `static_cast<float*>` and
`static_cast<uint8_t*>`; the argument is the element index. -/
structure Region (F : Type) where
  asInt : Int → Int
  asFloat : Int → F
  asByte : Int → Nat

/-- The call `memcpy(dst, src, n)` of `n` bytes between two regions, element by element
(`int` and `float` are four bytes wide). -/
def Region.memcpy {F : Type} (dst src : Region F) (n : Int) : Region F :=
  { asInt := fun i => if 0 ≤ i ∧ 4 * (i + 1) ≤ n then src.asInt i else dst.asInt i
    asFloat := fun i => if 0 ≤ i ∧ 4 * (i + 1) ≤ n then src.asFloat i else dst.asFloat i
    asByte := fun i => if 0 ≤ i ∧ i + 1 ≤ n then src.asByte i else dst.asByte i }

/-- A raw pointer: the allocation it points into and an element offset. -/
structure Ptr where
  base : Nat
  off : Int
deriving DecidableEq, Repr

/-- Pointer arithmetic `p + k`. -/
def Ptr.add (p : Ptr) (k : Int) : Ptr := { p with off := p.off + k }

/-- A `MemoryManager`: a host region and a device region with their addresses. -/
structure Buffer (F : Type) where
  capacity : Int
  hostPtr : Ptr
  devicePtr : Ptr
  host : Region F
  device : Region F

/-- One entry of the descriptor table, `TensorInfo`. -/
structure TensorInfo (F : Type) where
  name : String
  dims : Dims
  input : Bool
  typeSize : Int
  bytes : Int
  buffer : Buffer F

/-- Modelled from the spec: `TensorInfo::update` of `deploy/core/types.hpp`, which recomputes
the shape-dependent byte size ("Byte size = volume(shape) × element width"). -/
def TensorInfo.update {F : Type} (t : TensorInfo F) : TensorInfo F :=
  { t with bytes := calculateVolume t.dims * t.typeSize }

/-- The byte-size invariant of a descriptor. -/
def TensorInfo.sizeOk {F : Type} (t : TensorInfo F) : Prop :=
  t.bytes = calculateVolume t.dims * t.typeSize

/-- A `std::vector<T>`: its size and its storage.  `operator[]` is unchecked, so reads and
writes address the storage whatever the size is. -/
structure Vec (T : Type) where
  size : Nat
  data : Nat → T

/-- The expression `v[i]`. -/
def Vec.get {T : Type} (v : Vec T) (i : Nat) : T := v.data i

/-- The assignment `v[i] = x`. -/
def Vec.set {T : Type} (v : Vec T) (i : Nat) (x : T) : Vec T :=
  { v with data := fun j => if j = i then x else v.data j }

/-- The call `v.resize(n, x)`. -/
def Vec.resize {T : Type} (v : Vec T) (n : Nat) (x : T) : Vec T :=
  { size := n, data := fun j => if j < v.size then v.data j else x }

/-- The call `v.reserve(n)`: capacity only, the size and the elements stay. -/
def Vec.reserve {T : Type} (v : Vec T) (_n : Nat) : Vec T := v

/-- An input image: the pointer, the packed RGB bytes it refers to, and the extent. -/
structure Image where
  rgbPtr : Ptr
  rgb : Int → Nat
  width : Int
  height : Int

/-- The streams of an engine: the inference stream and one stream per batch slot. -/
inductive Stream where
  | infer
  | input (i : Nat)
deriving DecidableEq, Repr

/-- A call issued to the memory manager, the accelerator, the engine or a decoder. -/
inductive Call where
  | bufferAllocate (tensor : String) (bytes : Int)
  | setTensorAddress (tensor : String) (addr : Ptr)
  | setInputShape (tensor : String) (batch : Int)
  | transformUpdate (slot : Nat) (width height : Int)
  | imageAllocate (slot : Nat) (bytes : Int)
  | hostMemcpy (slot : Nat) (bytes : Int)
  | memcpyHostToDevice (slot : Nat) (bytes : Int) (stream : Stream)
  | warpAffine (slot : Nat) (stream : Stream)
  | streamSynchronize (stream : Stream)
  | enqueueV3
  | memcpyDeviceToHost (tensor : String) (bytes : Int)
  | postProcess (slot : Nat)
  | pinnedAllocate (bytes : Int)
  | updateKernelNodeParams (node : Nat)
  | updateMemcpyNodeParams (node : Nat) (bytes : Int)
  | graphLaunch
deriving DecidableEq, Repr

/-- The bindings held by the execution context `engineCtx->mContext`. -/
structure ExecContext where
  addresses : List (String × Ptr)
  inputShapes : List (String × Dims)

/-- The call `setTensorAddress(name, addr)`. -/
def ExecContext.setTensorAddress (c : ExecContext) (name : String) (addr : Ptr) : ExecContext :=
  { c with addresses := (name, addr) :: c.addresses.filter (fun p => p.1 != name) }

/-- The call `setInputShape(name, dims)`. -/
def ExecContext.setInputShape (c : ExecContext) (name : String) (dims : Dims) : ExecContext :=
  { c with inputShapes := (name, dims) :: c.inputShapes.filter (fun p => p.1 != name) }

/-- The argument array handed to `updateKernelNodeParams`. -/
structure KernelParams (F : Type) where
  src : Ptr
  srcWidth : Int
  srcHeight : Int
  dst : Ptr
  dstWidth : Int
  dstHeight : Int
  m0 : F × F × F
  m1 : F × F × F

/-- The arguments handed to `updateMemcpyNodeParams`. -/
structure MemcpyParams where
  host : Ptr
  device : Ptr
  bytes : Int

/-- The patchable parameters of a graph node. -/
inductive NodeParams (F : Type) where
  | unset
  | kernel (p : KernelParams F)
  | memcpy (p : MemcpyParams)

/-- The captured graph: the nodes retrieved by `initializeNodes`, addressed by index. -/
structure Graph (F : Type) where
  numNodes : Nat
  nodes : Nat → NodeParams F
  launches : Nat

/-- The state shared by both engines: the members of `BaseTemplate<T>`. -/
structure BaseTemplate (F TM : Type) where
  cudaMem : Bool
  dynamic : Bool
  batch : Int
  width : Int
  height : Int
  transforms : Vec TM
  tensorInfos : List (TensorInfo F)
  engineCtx : ExecContext

/-- The collaborators of `inference.cpp`: `TransformMatrix` (`deploy/core/types.hpp`),
`MemoryManager` (`deploy/core/memory.hpp`), the warp kernel, the compute engine, the graph
launch, and the conversion of a `float` to an `int`. -/
structure Externals (F TM : Type) where
  tmDefault : TM
  tmUpdate : TM → Int → Int → Int → Int → TM
  tmTransform : TM → F → F → F × F
  tmDw : TM → Int
  tmDh : TM → Int
  tmMatrix : TM → Nat → F × F × F
  floatToInt : F → Int
  emptyBuffer : Buffer F
  allocate : Buffer F → Int → Buffer F
  cudaWarpAffine : (Int → Nat) → Int → Int → Int → Int → (Nat → F × F × F) → Int → F
  enqueueV3 : ExecContext → List (TensorInfo F) → Bool
  engineOutput : ExecContext → List (TensorInfo F) → Nat → Region F
  graphReplay : Graph F → Buffer F → List Image → List (TensorInfo F) → Nat → Buffer F

/-- The expression `this->tensorInfos[k]`. -/
def BaseTemplate.tensorInfo {F TM : Type} (X : Externals F TM) (b : BaseTemplate F TM)
    (k : Nat) : TensorInfo F :=
  b.tensorInfos.getD k
    { name := "", dims := ⟨0, fun _ => 0⟩, input := false, typeSize := 0, bytes := 0,
      buffer := X.emptyBuffer }

/-! ## Result records -/

/-- An axis-aligned box, `Box{left, top, right, bottom}`. -/
structure Box (F : Type) where
  left : F
  top : F
  right : F
  bottom : F

/-- An oriented box, `RotatedBox{left, top, right, bottom, theta}`. -/
structure RotatedBox (F : Type) where
  left : F
  top : F
  right : F
  bottom : F
  theta : F

/-- Modelled from the spec: a keypoint "(x, y, optional confidence)"; `KeyPoint(x, y)` leaves
the confidence absent and `KeyPoint(x, y, c)` stores it. -/
structure KeyPoint (F : Type) where
  x : F
  y : F
  conf : Option F

/-- An instance mask: its extent and its pixel storage `data`. -/
structure Mask where
  width : Int
  height : Int
  data : Int → Nat

/-- Modelled from the spec: the constructor `Mask(width, height)` of
`deploy/core/types.hpp`, "a mask sized to" the given extent: its pixel storage holds
`width * height` bytes, so that the construction throws, `none`, when that product is
negative. -/
def Mask.make (width height : Int) : Option Mask :=
  if width * height < 0 then none
  else some { width := width, height := height, data := fun _ => 0 }

/-- Detection result. -/
structure DetResult (F : Type) where
  num : Int
  boxes : List (Box F)
  scores : List F
  classes : List Int

/-- Oriented-box detection result. -/
structure OBBResult (F : Type) where
  num : Int
  boxes : List (RotatedBox F)
  scores : List F
  classes : List Int

/-- Segmentation result. -/
structure SegResult (F : Type) where
  num : Int
  boxes : List (Box F)
  scores : List F
  classes : List Int
  masks : List Mask

/-- Pose result. -/
structure PoseResult (F : Type) where
  num : Int
  boxes : List (Box F)
  scores : List F
  classes : List Int
  kpts : List (List (KeyPoint F))

/-- Classification result. -/
structure ClsResult (F : Type) where
  scores : List F
  classes : List Int

/-! ## Result decoders: `BaseTemplate<T>::postProcess` -/

section Decoders

variable {F TM : Type}

/-- The detection count of slot `idx`: `static_cast<int*>(tensorInfos[1].buffer.host())[idx]`. -/
def BaseTemplate.count (X : Externals F TM) (b : BaseTemplate F TM) (idx : Nat) : Int :=
  (b.tensorInfo X 1).buffer.host.asInt idx

/-- The pointer `boxes` of a decoder, as a view: element `k` of slot `idx` of the box tensor. -/
def BaseTemplate.boxes (X : Externals F TM) (b : BaseTemplate F TM) (idx : Nat) (k : Int) : F :=
  (b.tensorInfo X 2).buffer.host.asFloat
    ((idx : Int) * (b.tensorInfo X 2).dims.d 1 * (b.tensorInfo X 2).dims.d 2 + k)

/-- The pointer `scores` of a decoder, as a view. -/
def BaseTemplate.scores (X : Externals F TM) (b : BaseTemplate F TM) (idx : Nat) (k : Int) : F :=
  (b.tensorInfo X 3).buffer.host.asFloat ((idx : Int) * (b.tensorInfo X 3).dims.d 1 + k)

/-- The pointer `classes` of a decoder, as a view. -/
def BaseTemplate.classes (X : Externals F TM) (b : BaseTemplate F TM) (idx : Nat) (k : Int) :
    Int :=
  (b.tensorInfo X 4).buffer.host.asInt ((idx : Int) * (b.tensorInfo X 4).dims.d 1 + k)

/-- The box of entry `i`: four floats at `i * boxSize`, the two corners mapped through
`transforms[idx].transform`. -/
def BaseTemplate.boxAt (X : Externals F TM) (b : BaseTemplate F TM) (idx : Nat) (i : Nat) :
    Box F :=
  let boxSize := (b.tensorInfo X 2).dims.d 2
  let left := b.boxes X idx (i * boxSize)
  let top := b.boxes X idx (i * boxSize + 1)
  let right := b.boxes X idx (i * boxSize + 2)
  let bottom := b.boxes X idx (i * boxSize + 3)
  let lt := X.tmTransform (b.transforms.get idx) left top
  let rb := X.tmTransform (b.transforms.get idx) right bottom
  { left := lt.1, top := lt.2, right := rb.1, bottom := rb.2 }

/-- One iteration of the loop of `BaseTemplate<DetResult>::postProcess`. -/
def detStep (X : Externals F TM) (b : BaseTemplate F TM) (idx : Nat) (result : DetResult F)
    (i : Nat) : DetResult F :=
  { result with
    boxes := result.boxes ++ [b.boxAt X idx i]
    scores := result.scores ++ [b.scores X idx i]
    classes := result.classes ++ [b.classes X idx i] }

/-- The decoder `BaseTemplate<DetResult>::postProcess(idx)`. -/
def postProcessDet (X : Externals F TM) (b : BaseTemplate F TM) (idx : Nat) : DetResult F :=
  let num := b.count X idx
  (List.range num.toNat).foldl (detStep X b idx)
    { num := num, boxes := [], scores := [], classes := [] }

/-- The oriented box of entry `i`: as `boxAt`, with the fifth float carried as `theta`. -/
def BaseTemplate.rotatedBoxAt (X : Externals F TM) (b : BaseTemplate F TM) (idx : Nat)
    (i : Nat) : RotatedBox F :=
  let boxSize := (b.tensorInfo X 2).dims.d 2
  let left := b.boxes X idx (i * boxSize)
  let top := b.boxes X idx (i * boxSize + 1)
  let right := b.boxes X idx (i * boxSize + 2)
  let bottom := b.boxes X idx (i * boxSize + 3)
  let theta := b.boxes X idx (i * boxSize + 4)
  let lt := X.tmTransform (b.transforms.get idx) left top
  let rb := X.tmTransform (b.transforms.get idx) right bottom
  { left := lt.1, top := lt.2, right := rb.1, bottom := rb.2, theta := theta }

/-- One iteration of the loop of `BaseTemplate<OBBResult>::postProcess`. -/
def obbStep (X : Externals F TM) (b : BaseTemplate F TM) (idx : Nat) (result : OBBResult F)
    (i : Nat) : OBBResult F :=
  { result with
    boxes := result.boxes ++ [b.rotatedBoxAt X idx i]
    scores := result.scores ++ [b.scores X idx i]
    classes := result.classes ++ [b.classes X idx i] }

/-- The decoder `BaseTemplate<OBBResult>::postProcess(idx)`. -/
def postProcessOBB (X : Externals F TM) (b : BaseTemplate F TM) (idx : Nat) : OBBResult F :=
  let num := b.count X idx
  (List.range num.toNat).foldl (obbStep X b idx)
    { num := num, boxes := [], scores := [], classes := [] }

/-- The pointer `masks` of the segmentation decoder, as a view. -/
def BaseTemplate.masks (X : Externals F TM) (b : BaseTemplate F TM) (idx : Nat) (k : Int) :
    Nat :=
  (b.tensorInfo X 5).buffer.host.asByte
    ((idx : Int) * (b.tensorInfo X 5).dims.d 1 * (b.tensorInfo X 5).dims.d 2
      * (b.tensorInfo X 5).dims.d 3 + k)

/-- One row copy of the crop loop: `memcpy(&mask.data[y * mask.width], masks + srcIndex,
mask.width)`, the length converted to `size_t`, followed by `srcIndex += maskWidth`. -/
def cropRow (masks : Int → Nat) (maskWidth : Int) (acc : Mask × Int) (y : Nat) : Mask × Int :=
  let mask := acc.1
  let srcIndex := acc.2
  ({ mask with
      data := fun k =>
        if (y : Int) * mask.width ≤ k ∧ k < (y : Int) * mask.width + toSizeT mask.width then
          masks (srcIndex + (k - (y : Int) * mask.width))
        else mask.data k },
    srcIndex + maskWidth)

/-- The crop loop of entry `i` of slot `idx` on a constructed mask: one row copy for every
`y < mask.height`, starting at `i * maskHeight * maskWidth + dh * maskWidth + dw`. -/
def BaseTemplate.cropInto (X : Externals F TM) (b : BaseTemplate F TM) (idx : Nat) (i : Nat)
    (mask : Mask) : Mask :=
  let maskHeight := (b.tensorInfo X 5).dims.d 2
  let maskWidth := (b.tensorInfo X 5).dims.d 3
  let startIdx : Int := i * maskHeight * maskWidth
  let srcIndex := startIdx + X.tmDh (b.transforms.get idx) * maskWidth
    + X.tmDw (b.transforms.get idx)
  ((List.range mask.height.toNat).foldl (cropRow (b.masks X idx) maskWidth) (mask, srcIndex)).1

/-- The cropped mask of entry `i` of slot `idx`: the construction
`Mask mask(maskWidth - 2 * dw, maskHeight - 2 * dh)`, which may throw, then the crop loop. -/
def BaseTemplate.maskAt (X : Externals F TM) (b : BaseTemplate F TM) (idx : Nat) (i : Nat) :
    Option Mask :=
  (Mask.make ((b.tensorInfo X 5).dims.d 3 - 2 * X.tmDw (b.transforms.get idx))
    ((b.tensorInfo X 5).dims.d 2 - 2 * X.tmDh (b.transforms.get idx))).map
    (b.cropInto X idx i)

/-- One iteration of the loop of `BaseTemplate<SegResult>::postProcess`; `none` is the
exception of a mask construction, which ends the decoding without a result. -/
def segStep (X : Externals F TM) (b : BaseTemplate F TM) (idx : Nat)
    (result : Option (SegResult F)) (i : Nat) : Option (SegResult F) :=
  result.bind (fun r =>
    (b.maskAt X idx i).map (fun mask =>
      { r with
        boxes := r.boxes ++ [b.boxAt X idx i]
        scores := r.scores ++ [b.scores X idx i]
        classes := r.classes ++ [b.classes X idx i]
        masks := r.masks ++ [mask] }))

/-- The decoder `BaseTemplate<SegResult>::postProcess(idx)`; `none` when it throws. -/
def postProcessSeg (X : Externals F TM) (b : BaseTemplate F TM) (idx : Nat) :
    Option (SegResult F) :=
  let num := b.count X idx
  (List.range num.toNat).foldl (segStep X b idx)
    (some { num := num, boxes := [], scores := [], classes := [], masks := [] })

/-- The pointer `kpts` of the pose decoder, as a view. -/
def BaseTemplate.kpts (X : Externals F TM) (b : BaseTemplate F TM) (idx : Nat) (k : Int) : F :=
  (b.tensorInfo X 5).buffer.host.asFloat
    ((idx : Int) * (b.tensorInfo X 5).dims.d 1 * (b.tensorInfo X 5).dims.d 2
      * (b.tensorInfo X 5).dims.d 3 + k)

/-- Keypoint `j` of entry `i` of slot `idx`: the body of the inner loop of the pose decoder. -/
def BaseTemplate.keyPointAt (X : Externals F TM) (b : BaseTemplate F TM) (idx : Nat)
    (i j : Nat) : KeyPoint F :=
  let nkpt := (b.tensorInfo X 5).dims.d 2
  let ndim := (b.tensorInfo X 5).dims.d 3
  let x := b.kpts X idx (i * nkpt * ndim + j * ndim)
  let y := b.kpts X idx (i * nkpt * ndim + j * ndim + 1)
  let xy := X.tmTransform (b.transforms.get idx) x y
  if ndim = 2 then { x := xy.1, y := xy.2, conf := none }
  else { x := xy.1, y := xy.2, conf := some (b.kpts X idx (i * nkpt * ndim + j * ndim + 2)) }

/-- The inner loop of the pose decoder: the keypoints of entry `i`. -/
def BaseTemplate.keyPointsAt (X : Externals F TM) (b : BaseTemplate F TM) (idx : Nat)
    (i : Nat) : List (KeyPoint F) :=
  (List.range ((b.tensorInfo X 5).dims.d 2).toNat).foldl
    (fun keypoints j => keypoints ++ [b.keyPointAt X idx i j]) []

/-- One iteration of the outer loop of `BaseTemplate<PoseResult>::postProcess`. -/
def poseStep (X : Externals F TM) (b : BaseTemplate F TM) (idx : Nat) (result : PoseResult F)
    (i : Nat) : PoseResult F :=
  { result with
    boxes := result.boxes ++ [b.boxAt X idx i]
    scores := result.scores ++ [b.scores X idx i]
    classes := result.classes ++ [b.classes X idx i]
    kpts := result.kpts ++ [b.keyPointsAt X idx i] }

/-- The decoder `BaseTemplate<PoseResult>::postProcess(idx)`. -/
def postProcessPose (X : Externals F TM) (b : BaseTemplate F TM) (idx : Nat) : PoseResult F :=
  let num := b.count X idx
  (List.range num.toNat).foldl (poseStep X b idx)
    { num := num, boxes := [], scores := [], classes := [], kpts := [] }

/-- The pointer `top5` of the classification decoder, as a view. -/
def BaseTemplate.top5 (X : Externals F TM) (b : BaseTemplate F TM) (idx : Nat) (k : Int) : F :=
  (b.tensorInfo X 1).buffer.host.asFloat
    ((idx : Int) * (b.tensorInfo X 1).dims.d 1 * (b.tensorInfo X 1).dims.d 2 + k)

/-- One iteration of the loop of `BaseTemplate<ClsResult>::postProcess`; the class id is the
float at `i * d[2] + 1` converted to `int`. -/
def clsStep (X : Externals F TM) (b : BaseTemplate F TM) (idx : Nat) (result : ClsResult F)
    (i : Nat) : ClsResult F :=
  { scores := result.scores ++ [b.top5 X idx (i * (b.tensorInfo X 1).dims.d 2)]
    classes := result.classes
      ++ [X.floatToInt (b.top5 X idx (i * (b.tensorInfo X 1).dims.d 2 + 1))] }

/-- The decoder `BaseTemplate<ClsResult>::postProcess(idx)`. -/
def postProcessCls (X : Externals F TM) (b : BaseTemplate F TM) (idx : Nat) : ClsResult F :=
  (List.range ((b.tensorInfo X 1).dims.d 1).toNat).foldl (clsStep X b idx)
    { scores := [], classes := [] }

end Decoders

/-! ## Loops over the batch and over the descriptor table -/

section Loops

variable {σ α β : Type}

/-- The loop `for (i = start; i < start + images.size(); ++i) body(i, images[i - start])`. -/
def forSlots (body : σ → Nat → Image → σ) : σ → Nat → List Image → σ
  | st, _, [] => st
  | st, i, img :: rest => forSlots body (body st i img) (i + 1) rest

/-- A pass over a table that rewrites entry `j` with `f j`. -/
def mapSlots (f : Nat → α → β) : Nat → List α → List β
  | _, [] => []
  | j, a :: l => f j a :: mapSlots f (j + 1) l

/-- The assignment to `table[0]`. -/
def mapHead (f : α → α) : List α → List α
  | [] => []
  | a :: l => f a :: l

end Loops

/-! ## Direct execution engine: `DeployTemplate<T>` -/

/-- What the engine reports about one IO tensor: `getIOTensorName`, `getTensorShape`,
`getDataTypeSize(getTensorDataType)`, `getTensorIOMode == kINPUT` and
`getProfileShape(name, 0, kMAX)`. -/
structure TensorSpec where
  name : String
  shape : Dims
  typesz : Int
  input : Bool
  profileMax : Dims

/-- The state of a `DeployTemplate<T>`. -/
structure DeployTemplate (F TM : Type) extends BaseTemplate F TM where
  inputStreams : Nat
  imageBuffers : Vec (Buffer F)
  issued : List Call

section Direct

variable {F TM R : Type}

/-- One iteration of the loop of `DeployTemplate<T>::setupTensors`. -/
def setupTensorsStep (X : Externals F TM) (b : BaseTemplate F TM) (s : TensorSpec) :
    BaseTemplate F TM :=
  if s.input then
    let dynamic := (List.range s.shape.nbDims).any (fun i => s.shape.d i == -1)
    let dims := if dynamic then s.profileMax else s.shape
    { b with
      dynamic := dynamic
      batch := dims.d 0
      height := dims.d 2
      width := dims.d 3
      tensorInfos := b.tensorInfos ++
        [{ name := s.name, dims := dims, input := true, typeSize := s.typesz,
           bytes := calculateVolume dims * s.typesz, buffer := X.emptyBuffer }] }
  else
    let dims := if b.dynamic then s.shape.setBatch b.batch else s.shape
    { b with
      tensorInfos := b.tensorInfos ++
        [{ name := s.name, dims := dims, input := false, typeSize := s.typesz,
           bytes := calculateVolume dims * s.typesz, buffer := X.emptyBuffer }] }

/-- The function `DeployTemplate<T>::setupTensors`, over the tensors the engine reports. -/
def DeployTemplate.setupTensors (X : Externals F TM) (st : DeployTemplate F TM)
    (specs : List TensorSpec) : DeployTemplate F TM :=
  { st with toBaseTemplate := specs.foldl (setupTensorsStep X) st.toBaseTemplate }

/-- The function `DeployTemplate<T>::allocate`. -/
def DeployTemplate.allocate (X : Externals F TM) (st : DeployTemplate F TM) :
    DeployTemplate F TM :=
  { st with
    inputStreams := st.batch.toNat
    transforms := st.transforms.resize st.batch.toNat X.tmDefault
    imageBuffers :=
      if !st.cudaMem then st.imageBuffers.resize st.batch.toNat X.emptyBuffer
      else st.imageBuffers }

/-- The members of a `DeployTemplate<T>` before its constructor body runs. -/
def DeployTemplate.initial (X : Externals F TM) (cudaMem : Bool) : DeployTemplate F TM :=
  { cudaMem := cudaMem, dynamic := false, batch := 0, width := 0, height := 0
    transforms := ⟨0, fun _ => X.tmDefault⟩
    tensorInfos := []
    engineCtx := ⟨[], []⟩
    inputStreams := 0
    imageBuffers := ⟨0, fun _ => X.emptyBuffer⟩
    issued := [] }

/-- The constructor `DeployTemplate<T>::DeployTemplate`: `setupTensors` then `allocate`. -/
def DeployTemplate.construct (X : Externals F TM) (cudaMem : Bool) (specs : List TensorSpec) :
    DeployTemplate F TM :=
  ((DeployTemplate.initial X cudaMem).setupTensors X specs).allocate X

/-- What the first loop of batch `predict` does to one descriptor: set the batch extent,
recompute the byte size when the model is dynamic, allocate the buffer. -/
def tensorStep (X : Externals F TM) (dynamic : Bool) (numImages : Int) (t : TensorInfo F) :
    TensorInfo F :=
  let t1 := { t with dims := t.dims.setBatch numImages }
  let t2 := if dynamic then t1.update else t1
  { t2 with buffer := X.allocate t2.buffer t2.bytes }

/-- The bindings one descriptor receives in the first loop of batch `predict`. -/
def bindStep (dynamic : Bool) (c : ExecContext) (t : TensorInfo F) : ExecContext :=
  let c1 := c.setTensorAddress t.name t.buffer.devicePtr
  if t.input && dynamic then c1.setInputShape t.name t.dims else c1

/-- The calls the first loop of batch `predict` issues for one descriptor. -/
def bindCalls (dynamic : Bool) (t : TensorInfo F) : List Call :=
  [Call.bufferAllocate t.name t.bytes, Call.setTensorAddress t.name t.buffer.devicePtr]
    ++ (if t.input && dynamic then [Call.setInputShape t.name (t.dims.d 0)] else [])

/-- The first loop of batch `predict`, `for (auto& tensorInfo : this->tensorInfos)`. -/
def bindTensors (X : Externals F TM) (dynamic : Bool) (numImages : Int) :
    List (TensorInfo F) → ExecContext → List Call →
      List (TensorInfo F) × ExecContext × List Call
  | [], c, log => ([], c, log)
  | t :: ts, c, log =>
    let t1 := tensorStep X dynamic numImages t
    let rest := bindTensors X dynamic numImages ts (bindStep dynamic c t1)
      (log ++ bindCalls dynamic t1)
    (t1 :: rest.1, rest.2.1, rest.2.2)

/-- The write of the warp kernel into `inputDevice[0 .. inputSize)`, seen on the float view of
the device region of the input tensor. -/
def writeInput (inputOff inputSize : Int) (warped : Int → F) (t : TensorInfo F) :
    TensorInfo F :=
  { t with
    buffer := { t.buffer with
      device := { t.buffer.device with
        asFloat := fun k =>
          if inputOff ≤ k ∧ k < inputOff + inputSize then warped (k - inputOff)
          else t.buffer.device.asFloat k } } }

/-- The number of bytes staged for a host image: `3 * image.width * image.height`, computed
in `int`, as the `size_t` handed to `allocate` and `memcpy`. -/
def Image.stageBytes (image : Image) : Int :=
  toSizeT (toInt32 (3 * image.width * image.height))

/-- The staging of a host image: `allocate(imageSize)`, `memcpy` into the host side, copy to
the device side. -/
def stageImage (X : Externals F TM) (buf : Buffer F) (image : Image) (imageSize : Int) :
    Buffer F :=
  let b := X.allocate buf imageSize
  let host : Region F :=
    { b.host with asByte := fun k => if 0 ≤ k ∧ k < imageSize then image.rgb k
                                      else b.host.asByte k }
  { b with host := host, device := b.device.memcpy host imageSize }

/-- The function `DeployTemplate<T>::preProcess(idx, image, stream)`. -/
def DeployTemplate.preProcess (X : Externals F TM) (stream : Nat → Stream)
    (st : DeployTemplate F TM) (idx : Nat) (image : Image) : DeployTemplate F TM :=
  let tm := X.tmUpdate (st.transforms.get idx) image.width image.height st.width st.height
  let inputSize : Int := 3 * st.height * st.width
  let inputOff : Int := idx * inputSize
  if st.cudaMem then
    { st with
      transforms := st.transforms.set idx tm
      tensorInfos := mapHead (writeInput inputOff inputSize
        (X.cudaWarpAffine image.rgb image.width image.height st.width st.height
          (X.tmMatrix tm))) st.tensorInfos
      issued := st.issued ++
        [Call.transformUpdate idx image.width image.height, Call.warpAffine idx (stream idx)] }
  else
    let imageSize : Int := image.stageBytes
    let buf := stageImage X (st.imageBuffers.get idx) image imageSize
    { st with
      transforms := st.transforms.set idx tm
      imageBuffers := st.imageBuffers.set idx buf
      tensorInfos := mapHead (writeInput inputOff inputSize
        (X.cudaWarpAffine buf.device.asByte image.width image.height st.width st.height
          (X.tmMatrix tm))) st.tensorInfos
      issued := st.issued ++
        [Call.transformUpdate idx image.width image.height, Call.imageAllocate idx imageSize,
         Call.hostMemcpy idx imageSize, Call.memcpyHostToDevice idx imageSize (stream idx),
         Call.warpAffine idx (stream idx)] }

/-- Steps 2 and 3 of batch `predict`, for an accepted batch: the descriptor loop, then the
preprocessing of every image (on the input streams, joined afterwards, when there are
several images; on the inference stream when there is one). -/
def DeployTemplate.prepare (X : Externals F TM) (st : DeployTemplate F TM)
    (images : List Image) : DeployTemplate F TM :=
  let numImages : Int := images.length
  let bound := bindTensors X st.dynamic numImages st.tensorInfos st.engineCtx st.issued
  let st1 : DeployTemplate F TM :=
    { st with tensorInfos := bound.1, engineCtx := bound.2.1, issued := bound.2.2 }
  if numImages > 1 then
    let st2 := forSlots (DeployTemplate.preProcess X Stream.input) st1 0 images
    { st2 with
      issued := st2.issued ++
        (List.range st2.inputStreams).map (fun (i : Nat) => Call.streamSynchronize (Stream.input i)) }
  else
    match images with
    | [] => st1
    | image :: _ => DeployTemplate.preProcess X (fun _ => Stream.infer) st1 0 image

/-- Whether the submission `enqueueV3(inferStream)` of this call reports success. -/
def DeployTemplate.submitted (X : Externals F TM) (st : DeployTemplate F TM)
    (images : List Image) : Bool :=
  X.enqueueV3 (st.prepare X images).engineCtx (st.prepare X images).tensorInfos

/-- The forward pass and the copy `cudaMemcpyAsync(host, device, bytes, DeviceToHost)` of
descriptor `j`; input descriptors are left alone. -/
def runOutput (X : Externals F TM) (c : ExecContext) (ts : List (TensorInfo F)) (j : Nat)
    (t : TensorInfo F) : TensorInfo F :=
  if t.input then t
  else
    { t with
      buffer := { t.buffer with
        device := X.engineOutput c ts j
        host := t.buffer.host.memcpy (X.engineOutput c ts j) t.bytes } }

/-- The calls of the output-copy loop. -/
def outputCalls (ts : List (TensorInfo F)) : List Call :=
  (ts.filter (fun t => !t.input)).map (fun t => Call.memcpyDeviceToHost t.name t.bytes)

/-- The decoding loop `for (i = 0; i < n; ++i) results.emplace_back(postProcess(i))`. -/
def decodeLoop (post : BaseTemplate F TM → Nat → R) (b : BaseTemplate F TM) (n : Nat) :
    List R × List Call :=
  (List.range n).foldl
    (fun acc i => (acc.1 ++ [post b i], acc.2 ++ [Call.postProcess i])) ([], [])

/-- The function `DeployTemplate<T>::predict(const std::vector<Image>&)`, for the decoder
`post` of the result type; it returns the results and the state the call leaves. -/
def DeployTemplate.predict (X : Externals F TM) (post : BaseTemplate F TM → Nat → R)
    (st : DeployTemplate F TM) (images : List Image) : List R × DeployTemplate F TM :=
  let numImages : Int := images.length
  if numImages < 1 ∨ numImages > st.batch then ([], st)
  else
    let st1 := st.prepare X images
    if !X.enqueueV3 st1.engineCtx st1.tensorInfos then
      ([], { st1 with issued := st1.issued ++ [Call.enqueueV3] })
    else
      let st2 : DeployTemplate F TM :=
        { st1 with
          tensorInfos := mapSlots (runOutput X st1.engineCtx st1.tensorInfos) 0 st1.tensorInfos
          issued := st1.issued ++ [Call.enqueueV3] ++ outputCalls st1.tensorInfos
            ++ [Call.streamSynchronize Stream.infer] }
      let decoded := decodeLoop post st2.toBaseTemplate numImages.toNat
      (decoded.1, { st2 with issued := st2.issued ++ decoded.2 })

/-- The function `DeployTemplate<T>::predict(const Image&)`; `dflt` is the value `T()`. -/
def DeployTemplate.predictOne (X : Externals F TM) (post : BaseTemplate F TM → Nat → R)
    (dflt : R) (st : DeployTemplate F TM) (image : Image) : R × DeployTemplate F TM :=
  let out := st.predict X post [image]
  match out.1 with
  | [] => (dflt, out.2)
  | r :: _ => (r, out.2)

end Direct

/-! ## Graph-replay engine: `DeployCGTemplate<T>` -/

/-- The state of a `DeployCGTemplate<T>`. -/
structure DeployCGTemplate (F TM : Type) extends BaseTemplate F TM where
  inputStreams : Nat
  inputEvents : Nat
  inputSize : Int
  imageSize : Vec Int
  imageBuffer : Buffer F
  graph : Graph F
  issued : List Call

section Replay

variable {F TM R : Type}

/-- The call `graph.updateKernelNodeParams(i, kernelParams)`. -/
def Graph.updateKernelNodeParams (g : Graph F) (i : Nat) (p : KernelParams F) : Graph F :=
  { g with nodes := fun j => if j = i then NodeParams.kernel p else g.nodes j }

/-- The call `graph.updateMemcpyNodeParams(i, host, device, bytes)`. -/
def Graph.updateMemcpyNodeParams (g : Graph F) (i : Nat) (p : MemcpyParams) : Graph F :=
  { g with nodes := fun j => if j = i then NodeParams.memcpy p else g.nodes j }

/-- The argument array `kernelParams` built for slot `i` from the source pointer `src`. -/
def DeployCGTemplate.kernelParams (X : Externals F TM) (st : DeployCGTemplate F TM) (i : Nat)
    (src : Ptr) (image : Image) : KernelParams F :=
  { src := src
    srcWidth := image.width
    srcHeight := image.height
    dst := (st.toBaseTemplate.tensorInfo X 0).buffer.devicePtr.add ((i : Int) * st.inputSize)
    dstWidth := st.width
    dstHeight := st.height
    m0 := X.tmMatrix (st.transforms.get i) 0
    m1 := X.tmMatrix (st.transforms.get i) 1 }

/-- The statement `transforms[i].update(images[i].width, images[i].height, width, height)`. -/
def DeployCGTemplate.updateTransform (X : Externals F TM) (st : DeployCGTemplate F TM)
    (i : Nat) (image : Image) : DeployCGTemplate F TM :=
  { st with
    transforms := st.transforms.set i
      (X.tmUpdate (st.transforms.get i) image.width image.height st.width st.height)
    issued := st.issued ++ [Call.transformUpdate i image.width image.height] }

/-- The body of the loop of the device-resident branch of batch `predict`. -/
def DeployCGTemplate.patchDevice (X : Externals F TM) (st : DeployCGTemplate F TM) (i : Nat)
    (image : Image) : DeployCGTemplate F TM :=
  let st1 := st.updateTransform X i image
  { st1 with
    graph := st1.graph.updateKernelNodeParams i (st1.kernelParams X i image.rgbPtr image)
    issued := st1.issued ++ [Call.updateKernelNodeParams i] }

/-- The body of the first loop of the host-resident branch: the transform, `imageSize[i]`
and the running `int totalSize`, both computed in `int`. -/
def DeployCGTemplate.measure (X : Externals F TM) (acc : DeployCGTemplate F TM × Int) (i : Nat)
    (image : Image) : DeployCGTemplate F TM × Int :=
  let st1 := acc.1.updateTransform X i image
  let st2 : DeployCGTemplate F TM :=
    { st1 with imageSize := st1.imageSize.set i (toInt32 (image.width * image.height * 3)) }
  (st2, toInt32 (acc.2 + st2.imageSize.get i))

/-- The body of the packing loop: `memcpy(hostPtr, images[i].rgbPtr, imageSize[i])`, the
length converted to `size_t`, and `hostPtr += imageSize[i]`; the second component is the
offset of `hostPtr` from `host`. -/
def DeployCGTemplate.pack (acc : DeployCGTemplate F TM × Int) (i : Nat) (image : Image) :
    DeployCGTemplate F TM × Int :=
  let st := acc.1
  let hostOff := acc.2
  let n := st.imageSize.get i
  let host : Region F :=
    { st.imageBuffer.host with
      asByte := fun k => if hostOff ≤ k ∧ k < hostOff + toSizeT n then image.rgb (k - hostOff)
                         else st.imageBuffer.host.asByte k }
  ({ st with
      imageBuffer := { st.imageBuffer with host := host }
      issued := st.issued ++ [Call.hostMemcpy i n] },
    hostOff + n)

/-- The body of the last loop of the host-resident branch: the transform again, the kernel
parameters of node `i + 1` reading at `devicePtr`, and `devicePtr += imageSize[i]`; the second
component is the offset of `devicePtr` from `device`. -/
def DeployCGTemplate.patchHost (X : Externals F TM) (acc : DeployCGTemplate F TM × Int)
    (i : Nat) (image : Image) : DeployCGTemplate F TM × Int :=
  let st1 := acc.1.updateTransform X i image
  ({ st1 with
      graph := st1.graph.updateKernelNodeParams (i + 1)
        (st1.kernelParams X i (st1.imageBuffer.devicePtr.add acc.2) image)
      issued := st1.issued ++ [Call.updateKernelNodeParams (i + 1)] },
    acc.2 + st1.imageSize.get i)

/-- The node updates of batch `predict`, for an accepted batch. -/
def DeployCGTemplate.patch (X : Externals F TM) (st : DeployCGTemplate F TM)
    (images : List Image) : DeployCGTemplate F TM :=
  if st.cudaMem then
    forSlots (DeployCGTemplate.patchDevice X) st 0 images
  else
    let measured := forSlots (DeployCGTemplate.measure X) (st, 0) 0 images
    let totalSize := measured.2
    let st1 : DeployCGTemplate F TM :=
      { measured.1 with
        imageBuffer := X.allocate measured.1.imageBuffer (toSizeT totalSize)
        issued := measured.1.issued ++ [Call.pinnedAllocate (toSizeT totalSize)] }
    let st2 := (forSlots DeployCGTemplate.pack (st1, 0) 0 images).1
    let st3 : DeployCGTemplate F TM :=
      { st2 with
        graph := st2.graph.updateMemcpyNodeParams 0
          { host := st2.imageBuffer.hostPtr, device := st2.imageBuffer.devicePtr,
            bytes := toSizeT totalSize }
        issued := st2.issued ++ [Call.updateMemcpyNodeParams 0 (toSizeT totalSize)] }
    (forSlots (DeployCGTemplate.patchHost X) (st3, 0) 0 images).1

/-- The call `graph.launch(inferStream)`: the bulk copy node with its current size, then the
replay of the captured warps, forward pass and output copies. -/
def DeployCGTemplate.launch (X : Externals F TM) (st : DeployCGTemplate F TM)
    (images : List Image) : DeployCGTemplate F TM :=
  let staged : Buffer F :=
    match st.graph.nodes 0 with
    | NodeParams.memcpy p =>
      { st.imageBuffer with device := st.imageBuffer.device.memcpy st.imageBuffer.host p.bytes }
    | _ => st.imageBuffer
  { st with
    imageBuffer := staged
    tensorInfos := mapSlots
      (fun j t => { t with buffer := X.graphReplay st.graph staged images st.tensorInfos j })
      0 st.tensorInfos
    graph := { st.graph with launches := st.graph.launches + 1 }
    issued := st.issued ++ [Call.graphLaunch] }

/-- The function `DeployCGTemplate<T>::predict(const std::vector<Image>&)`. -/
def DeployCGTemplate.predict (X : Externals F TM) (post : BaseTemplate F TM → Nat → R)
    (st : DeployCGTemplate F TM) (images : List Image) : List R × DeployCGTemplate F TM :=
  if (images.length : Int) ≠ st.batch then ([], st)
  else
    let st1 := (st.patch X images).launch X images
    let decoded := decodeLoop post st1.toBaseTemplate st1.batch.toNat
    (decoded.1, { st1 with issued := st1.issued ++ decoded.2 })

/-- The function `DeployCGTemplate<T>::predict(const Image&)`; `dflt` is the value `T()`. -/
def DeployCGTemplate.predictOne (X : Externals F TM) (post : BaseTemplate F TM → Nat → R)
    (dflt : R) (st : DeployCGTemplate F TM) (image : Image) : R × DeployCGTemplate F TM :=
  let out := st.predict X post [image]
  match out.1 with
  | [] => (dflt, out.2)
  | r :: _ => (r, out.2)

end Replay

/-! ## Construction of the graph-replay engine -/

section ReplayConstruction

variable {F TM : Type}

/-- One iteration of the loop of `DeployCGTemplate<T>::setupTensors`; `none` stands for the
exception thrown on a dynamic input. -/
def replaySetupTensorsStep (X : Externals F TM) (b : BaseTemplate F TM) (s : TensorSpec) :
    Option (BaseTemplate F TM) :=
  if s.input then
    if (List.range s.shape.nbDims).any (fun i => s.shape.d i == -1) then none
    else
      some { b with
        batch := s.shape.d 0
        height := s.shape.d 2
        width := s.shape.d 3
        tensorInfos := b.tensorInfos ++
          [{ name := s.name, dims := s.shape, input := true, typeSize := s.typesz,
             bytes := calculateVolume s.shape * s.typesz, buffer := X.emptyBuffer }] }
  else
    some { b with
      tensorInfos := b.tensorInfos ++
        [{ name := s.name, dims := s.shape, input := false, typeSize := s.typesz,
           bytes := calculateVolume s.shape * s.typesz, buffer := X.emptyBuffer }] }

/-- The function `DeployCGTemplate<T>::setupTensors`. -/
def DeployCGTemplate.setupTensors (X : Externals F TM) (st : DeployCGTemplate F TM)
    (specs : List TensorSpec) : Option (DeployCGTemplate F TM) :=
  (specs.foldlM (replaySetupTensorsStep X) st.toBaseTemplate).map
    (fun b => { st with toBaseTemplate := b })

/-- One iteration of the last loop of `DeployCGTemplate<T>::allocate`:
`transforms[i].update(width, height, width, height)`. -/
def DeployCGTemplate.allocateStep (X : Externals F TM) (st : DeployCGTemplate F TM)
    (i : Nat) : DeployCGTemplate F TM :=
  { st with
    transforms := st.transforms.set i
      (X.tmUpdate (st.transforms.get i) st.width st.height st.width st.height)
    issued := st.issued ++ [Call.transformUpdate i st.width st.height] }

/-- The function `DeployCGTemplate<T>::allocate`: streams and events when the batch exceeds
one, `imageSize.reserve(batch)`, `transforms.reserve(batch)`, a fresh pinned buffer of
`inputSize * batch` bytes, and the update of the transform of every slot. -/
def DeployCGTemplate.allocate (X : Externals F TM) (st : DeployCGTemplate F TM) :
    DeployCGTemplate F TM :=
  let st1 : DeployCGTemplate F TM :=
    { st with
      inputStreams := if st.batch > 1 then st.inputStreams + st.batch.toNat
                      else st.inputStreams
      inputEvents := if st.batch > 1 then st.inputEvents + (st.batch * 2).toNat
                     else st.inputEvents
      imageSize := st.imageSize.reserve st.batch.toNat
      transforms := st.transforms.reserve st.batch.toNat
      inputSize := st.width * st.height * 3
      imageBuffer := X.allocate X.emptyBuffer (st.width * st.height * 3 * 1 * st.batch)
      issued := st.issued ++ [Call.pinnedAllocate (st.width * st.height * 3 * 1 * st.batch)] }
  (List.range st.batch.toNat).foldl (DeployCGTemplate.allocateStep X) st1

/-- The members of a `DeployCGTemplate<T>` before its constructor body runs. -/
def DeployCGTemplate.initial (X : Externals F TM) (cudaMem : Bool) : DeployCGTemplate F TM :=
  { cudaMem := cudaMem, dynamic := false, batch := 0, width := 0, height := 0
    transforms := ⟨0, fun _ => X.tmDefault⟩
    tensorInfos := []
    engineCtx := ⟨[], []⟩
    inputStreams := 0
    inputEvents := 0
    inputSize := 0
    imageSize := ⟨0, fun _ => 0⟩
    imageBuffer := X.emptyBuffer
    graph := { numNodes := 0, nodes := fun _ => NodeParams.unset, launches := 0 }
    issued := [] }

/-- The first two steps of the constructor `DeployCGTemplate<T>::DeployCGTemplate`:
`setupTensors` then `allocate`. -/
def DeployCGTemplate.allocated (X : Externals F TM) (cudaMem : Bool) (specs : List TensorSpec) :
    Option (DeployCGTemplate F TM) :=
  ((DeployCGTemplate.initial X cudaMem).setupTensors X specs).map
    (DeployCGTemplate.allocate X)

/-- The exact byte size `width * height * 3` of an image. -/
def Image.bytes (image : Image) : Int := image.width * image.height * 3

/-- The sum of the byte sizes of the images before image `i`. -/
def packedOffset (images : List Image) (i : Nat) : Int :=
  ((images.take i).map Image.bytes).sum

/-- The members of a graph-replay engine that no node update of `predict` changes. -/
def DeployCGTemplate.fixed (st : DeployCGTemplate F TM) :
    Bool × Int × Int × Int × Int × List (TensorInfo F) :=
  (st.cudaMem, st.batch, st.width, st.height, st.inputSize, st.tensorInfos)

/-- The host-resident branch of `predict` up to the end of the packing loop. -/
def DeployCGTemplate.packed (X : Externals F TM) (st : DeployCGTemplate F TM)
    (images : List Image) : DeployCGTemplate F TM :=
  let measured := forSlots (DeployCGTemplate.measure X) (st, 0) 0 images
  let st1 : DeployCGTemplate F TM :=
    { measured.1 with
      imageBuffer := X.allocate measured.1.imageBuffer (toSizeT measured.2)
      issued := measured.1.issued ++ [Call.pinnedAllocate (toSizeT measured.2)] }
  (forSlots DeployCGTemplate.pack (st1, 0) 0 images).1

/-- The host-resident branch of `predict` up to the update of the bulk copy node. -/
def DeployCGTemplate.copyPatched (X : Externals F TM) (st : DeployCGTemplate F TM)
    (images : List Image) : DeployCGTemplate F TM :=
  let total := (forSlots (DeployCGTemplate.measure X) (st, 0) 0 images).2
  let st2 := st.packed X images
  { st2 with
    graph := st2.graph.updateMemcpyNodeParams 0
      { host := st2.imageBuffer.hostPtr, device := st2.imageBuffer.devicePtr,
        bytes := toSizeT total }
    issued := st2.issued ++ [Call.updateMemcpyNodeParams 0 (toSizeT total)] }

end ReplayConstruction

/-! ## Observations on a state -/

/-- Whether a call is a device-to-host output copy. -/
def Call.isOutputCopy : Call → Bool
  | Call.memcpyDeviceToHost _ _ => true
  | _ => false

/-- Whether a call is a decoder invocation. -/
def Call.isDecode : Call → Bool
  | Call.postProcess _ => true
  | _ => false

/-- The shape, element width and byte size of a descriptor. -/
def TensorInfo.desc {F : Type} (t : TensorInfo F) : Dims × Int × Int :=
  (t.dims, t.typeSize, t.bytes)

/-! ## Worked inputs -/

/-- A region whose `int` view is constantly `2`, whose `float` view at `k` is `k` and whose
byte view at `k` is `k`. -/
def sampleRegion : Region Int :=
  { asInt := fun _ => 2, asFloat := fun k => k, asByte := fun k => k.toNat }

/-- A buffer of 4096 bytes over `sampleRegion`. -/
def sampleBuffer (base : Nat) : Buffer Int :=
  { capacity := 4096, hostPtr := ⟨2 * base, 0⟩, devicePtr := ⟨2 * base + 1, 0⟩
    host := sampleRegion, device := sampleRegion }

/-- Collaborators for worked inputs: floats are integers, a transform is its pair of padding
offsets `(dw, dh)` for a scale of one, the warp copies bytes, the engine writes `sampleRegion`
and reports `ok` on submission. -/
def sampleExternals (ok : Bool) : Externals Int (Int × Int) :=
  { tmDefault := (0, 0)
    tmUpdate := fun _ srcW srcH dstW dstH => ((dstW - srcW) / 2, (dstH - srcH) / 2)
    tmTransform := fun tm x y => (x - tm.1, y - tm.2)
    tmDw := fun tm => tm.1
    tmDh := fun tm => tm.2
    tmMatrix := fun tm r => if r = 0 then (1, 0, tm.1) else (0, 1, tm.2)
    floatToInt := fun x => x
    emptyBuffer := { sampleBuffer 0 with capacity := 0 }
    allocate := fun b n => if n > b.capacity then { b with capacity := n } else b
    cudaWarpAffine := fun src _ _ _ _ _ k => (src k : Int)
    enqueueV3 := fun _ _ => ok
    engineOutput := fun _ _ _ => sampleRegion
    graphReplay := fun _ _ _ _ j => sampleBuffer j }

/-- The shape with the given extents. -/
def Dims.ofList (l : List Int) : Dims :=
  { nbDims := l.length, d := fun i => l.getD i 0 }

/-- A descriptor over `sampleBuffer`. -/
def sampleTensor (j : Nat) (name : String) (input : Bool) (typeSize : Int) (shape : List Int) :
    TensorInfo Int :=
  { name := name, dims := Dims.ofList shape, input := input, typeSize := typeSize
    bytes := calculateVolume (Dims.ofList shape) * typeSize, buffer := sampleBuffer j }

/-- A decoded state for a model of input 8 × 8 and batch 1: a count tensor (or, for
classification, the top-k tensor) of shape `second`, boxes of stride 5, four scores and
classes, and a fifth output of shape `sixth`; slot 0 has padding offsets `(dw, dh)`. -/
def sampleBase (second sixth : List Int) (dw dh : Int) : BaseTemplate Int (Int × Int) :=
  { cudaMem := true, dynamic := false, batch := 1, width := 8, height := 8
    transforms := ⟨1, fun _ => (dw, dh)⟩
    tensorInfos :=
      [sampleTensor 0 "images" true 4 [1, 3, 8, 8], sampleTensor 1 "num" false 4 second,
       sampleTensor 2 "boxes" false 4 [1, 4, 5], sampleTensor 3 "scores" false 4 [1, 4],
       sampleTensor 4 "classes" false 4 [1, 4], sampleTensor 5 "extra" false 4 sixth]
    engineCtx := ⟨[], []⟩ }

/-- What the engine reports for the worked model: an input of shape 2 × 3 × 2 × 2 and four
outputs; when `dyn` is set the batch extents are reported as `-1` and the maximum profile
gives batch 2. -/
def sampleSpecs (dyn : Bool) : List TensorSpec :=
  let n : Int := if dyn then -1 else 2
  [{ name := "images", shape := Dims.ofList [n, 3, 2, 2], typesz := 4, input := true
     profileMax := Dims.ofList [2, 3, 2, 2] },
   { name := "num", shape := Dims.ofList [n, 1], typesz := 4, input := false
     profileMax := Dims.ofList [2, 1] },
   { name := "boxes", shape := Dims.ofList [n, 4, 4], typesz := 4, input := false
     profileMax := Dims.ofList [2, 4, 4] },
   { name := "scores", shape := Dims.ofList [n, 4], typesz := 4, input := false
     profileMax := Dims.ofList [2, 4] },
   { name := "classes", shape := Dims.ofList [n, 4], typesz := 4, input := false
     profileMax := Dims.ofList [2, 4] }]

/-- A 2 × 2 image. -/
def sampleImage : Image :=
  { rgbPtr := ⟨100, 0⟩, rgb := fun k => k.toNat % 256, width := 2, height := 2 }

/-- The direct engine constructed on the worked model, for device-resident images. -/
def sampleDeploy (ok dyn : Bool) : DeployTemplate Int (Int × Int) :=
  DeployTemplate.construct (sampleExternals ok) true (sampleSpecs dyn)

/-- A graph-replay engine of the given batch size over the worked decoded state, for
device-resident images, with one kernel node per slot still unset. -/
def sampleReplay (batch : Int) : DeployCGTemplate Int (Int × Int) :=
  { toBaseTemplate := { sampleBase [1, 1] [1, 1, 1, 1] 0 0 with batch := batch }
    inputStreams := 0
    inputEvents := 0
    inputSize := 192
    imageSize := ⟨0, fun _ => 0⟩
    imageBuffer := sampleBuffer 9
    graph := { numNodes := batch.toNat, nodes := fun _ => NodeParams.unset, launches := 0 }
    issued := [] }

/-- The graph-replay engine of batch 2 over the worked decoded state, for host-resident
images; `inputSize` is `8 * 8 * 3`. -/
def sampleReplayHost : DeployCGTemplate Int (Int × Int) :=
  { sampleReplay 2 with cudaMem := false }

/-- A 32768 × 16384 image, of 1610612736 bytes. -/
def sampleLargeImage : Image :=
  { rgbPtr := ⟨101, 0⟩, rgb := fun k => k.toNat % 256, width := 32768, height := 16384 }

/-- The byte count of a bulk copy node. -/
def NodeParams.copyBytes {F : Type} : NodeParams F → Option Int
  | NodeParams.memcpy p => some p.bytes
  | _ => none

/-! ## Two calls in a row -/

section Settled

variable {F TM : Type}

/-- What the forward pass reads: the shape of every descriptor and the device region of
every input descriptor. -/
def engineView (ts : List (TensorInfo F)) : List (Dims × Bool × Option (Region F)) :=
  ts.map (fun t => (t.dims, t.input, if t.input then some t.buffer.device else none))

/-- The compute engine as a deterministic function of the bound input buffers and of the
shapes: whether the submission succeeds and what it writes depend on nothing else. -/
def Externals.engineDeterministic (X : Externals F TM) : Prop :=
  ∀ (c c2 : ExecContext) (ts ts2 : List (TensorInfo F)), engineView ts = engineView ts2 →
    X.enqueueV3 c ts = X.enqueueV3 c2 ts2 ∧
      ∀ j, X.engineOutput c ts j = X.engineOutput c2 ts2 j

/-- Modelled from the spec: `MemoryManager::allocate` of `deploy/core/memory.hpp`, as far as
two equal requests in a row go: the buffer holds at least the size demanded, and it is
"reallocated only when the requested size exceeds current capacity". -/
def Externals.allocateKeeps (X : Externals F TM) : Prop :=
  (∀ (b : Buffer F) (n : Int), n ≤ (X.allocate b n).capacity) ∧
    ∀ (b : Buffer F) (n : Int), n ≤ b.capacity → X.allocate b n = b

/-- Modelled from the spec: `TransformMatrix::update` of `deploy/core/types.hpp` is
"deterministic" in its four arguments: a second update with the same arguments changes
nothing. -/
def Externals.updateStable (X : Externals F TM) : Prop :=
  ∀ (tm : TM) (srcW srcH dstW dstH : Int),
    X.tmUpdate (X.tmUpdate tm srcW srcH dstW dstH) srcW srcH dstW dstH
      = X.tmUpdate tm srcW srcH dstW dstH

/-- A descriptor with the device region of an output forgotten. -/
def TensorInfo.eraseOutput (t : TensorInfo F) : TensorInfo F :=
  if t.input then t else { t with buffer := { t.buffer with device := t.buffer.host } }

/-- The part of a state that preprocessing and decoding read, up to the device regions of
the outputs. -/
def DeployTemplate.core (st : DeployTemplate F TM) :
    Bool × Int × Int × Vec TM × Vec (Buffer F) × List (TensorInfo F) :=
  (st.cudaMem, st.width, st.height, st.transforms, st.imageBuffers,
    st.tensorInfos.map TensorInfo.eraseOutput)

/-- Slot `i` of the state already carries the preprocessing of `image`: its transform is
up to date, its staging buffer holds the image, and the slot of the input tensor holds the
warped image. -/
def DeployTemplate.slotDone (X : Externals F TM) (st : DeployTemplate F TM) (i : Nat)
    (image : Image) : Prop :=
  X.tmUpdate (st.transforms.get i) image.width image.height st.width st.height
      = st.transforms.get i ∧
    (st.cudaMem = false →
      stageImage X (st.imageBuffers.get i) image image.stageBytes
        = st.imageBuffers.get i) ∧
    ∀ t rest, st.tensorInfos = t :: rest → t.input = true →
      ∀ x : Int, (i : Int) * (3 * st.height * st.width) ≤ x →
        x < (i : Int) * (3 * st.height * st.width) + 3 * st.height * st.width →
        t.buffer.device.asFloat x
          = X.cudaWarpAffine
              (if st.cudaMem then image.rgb else (st.imageBuffers.get i).device.asByte)
              image.width image.height st.width st.height (X.tmMatrix (st.transforms.get i))
              (x - (i : Int) * (3 * st.height * st.width))

/-- A descriptor as the first loop of `predict` leaves it for a batch of `k` images. -/
def TensorInfo.boundFor (dynamic : Bool) (k : Int) (t : TensorInfo F) : Prop :=
  t.dims.d 0 = k ∧ (dynamic = true → t.sizeOk) ∧ t.bytes ≤ t.buffer.capacity

/-- The fields of a descriptor that neither the warp nor the forward pass nor the output
copy touches. -/
def TensorInfo.frame (t : TensorInfo F) : Dims × Int × Int × Int :=
  (t.dims, t.typeSize, t.bytes, t.buffer.capacity)

/-- The state after the first loop of batch `predict`. -/
def DeployTemplate.afterBind (X : Externals F TM) (st : DeployTemplate F TM)
    (numImages : Int) : DeployTemplate F TM :=
  { st with
    tensorInfos :=
      (bindTensors X st.dynamic numImages st.tensorInfos st.engineCtx st.issued).1
    engineCtx :=
      (bindTensors X st.dynamic numImages st.tensorInfos st.engineCtx st.issued).2.1
    issued :=
      (bindTensors X st.dynamic numImages st.tensorInfos st.engineCtx st.issued).2.2 }

/-- A state in which a batch `predict` of `images` has just run: every slot carries its
image and every descriptor is as the first loop leaves it. -/
def DeployTemplate.settled (X : Externals F TM) (st : DeployTemplate F TM)
    (images : List Image) : Prop :=
  (∀ j image, images[j]? = some image → st.slotDone X j image) ∧
    ∀ t ∈ st.tensorInfos, t.boundFor st.dynamic (images.length : Int)

/-- The state after a successful forward pass and the output copies, for a prepared state. -/
def DeployTemplate.withOutputs (X : Externals F TM) (st : DeployTemplate F TM) :
    DeployTemplate F TM :=
  { st with
    tensorInfos := mapSlots (runOutput X st.engineCtx st.tensorInfos) 0 st.tensorInfos }

end Settled

/-! ## The decoders as maps over the entries -/

section DecoderLemmas

variable {F TM : Type}

theorem detStep_foldl (X : Externals F TM) (b : BaseTemplate F TM) (idx : Nat) (l : List Nat)
    (r : DetResult F) :
    l.foldl (detStep X b idx) r =
      { num := r.num
        boxes := r.boxes ++ l.map (b.boxAt X idx)
        scores := r.scores ++ l.map (fun (i : Nat) => b.scores X idx i)
        classes := r.classes ++ l.map (fun (i : Nat) => b.classes X idx i) } := by
  induction l generalizing r with
  | nil => simp
  | cons a l ih => simp [ih, detStep]

theorem obbStep_foldl (X : Externals F TM) (b : BaseTemplate F TM) (idx : Nat) (l : List Nat)
    (r : OBBResult F) :
    l.foldl (obbStep X b idx) r =
      { num := r.num
        boxes := r.boxes ++ l.map (b.rotatedBoxAt X idx)
        scores := r.scores ++ l.map (fun (i : Nat) => b.scores X idx i)
        classes := r.classes ++ l.map (fun (i : Nat) => b.classes X idx i) } := by
  induction l generalizing r with
  | nil => simp
  | cons a l ih => simp [ih, obbStep]

theorem maskAt_of_nonneg (X : Externals F TM) (b : BaseTemplate F TM) (idx i : Nat)
    (hok : 0 ≤ ((b.tensorInfo X 5).dims.d 3 - 2 * X.tmDw (b.transforms.get idx))
      * ((b.tensorInfo X 5).dims.d 2 - 2 * X.tmDh (b.transforms.get idx))) :
    b.maskAt X idx i
      = some (b.cropInto X idx i
          { width := (b.tensorInfo X 5).dims.d 3 - 2 * X.tmDw (b.transforms.get idx)
            height := (b.tensorInfo X 5).dims.d 2 - 2 * X.tmDh (b.transforms.get idx)
            data := fun _ => 0 }) := by
  simp only [BaseTemplate.maskAt, Mask.make, not_lt.mpr hok, if_false, Option.map_some']

theorem segStep_foldl (X : Externals F TM) (b : BaseTemplate F TM) (idx : Nat)
    (hok : 0 ≤ ((b.tensorInfo X 5).dims.d 3 - 2 * X.tmDw (b.transforms.get idx))
      * ((b.tensorInfo X 5).dims.d 2 - 2 * X.tmDh (b.transforms.get idx)))
    (l : List Nat) (r : SegResult F) :
    l.foldl (segStep X b idx) (some r) =
      some
        { num := r.num
          boxes := r.boxes ++ l.map (b.boxAt X idx)
          scores := r.scores ++ l.map (fun (i : Nat) => b.scores X idx i)
          classes := r.classes ++ l.map (fun (i : Nat) => b.classes X idx i)
          masks := r.masks ++ l.map (fun (i : Nat) => b.cropInto X idx i
            { width := (b.tensorInfo X 5).dims.d 3 - 2 * X.tmDw (b.transforms.get idx)
              height := (b.tensorInfo X 5).dims.d 2 - 2 * X.tmDh (b.transforms.get idx)
              data := fun _ => 0 }) } := by
  induction l generalizing r with
  | nil => simp
  | cons a l ih =>
    simp only [List.foldl_cons, segStep, Option.some_bind, maskAt_of_nonneg X b idx a hok,
      Option.map_some', ih, List.map_cons, List.append_assoc, List.singleton_append]

theorem segStep_foldl_none (X : Externals F TM) (b : BaseTemplate F TM) (idx : Nat)
    (l : List Nat) : l.foldl (segStep X b idx) none = none := by
  induction l with
  | nil => rfl
  | cons a l ih => simpa [segStep] using ih

theorem poseStep_foldl (X : Externals F TM) (b : BaseTemplate F TM) (idx : Nat) (l : List Nat)
    (r : PoseResult F) :
    l.foldl (poseStep X b idx) r =
      { num := r.num
        boxes := r.boxes ++ l.map (b.boxAt X idx)
        scores := r.scores ++ l.map (fun (i : Nat) => b.scores X idx i)
        classes := r.classes ++ l.map (fun (i : Nat) => b.classes X idx i)
        kpts := r.kpts ++ l.map (b.keyPointsAt X idx) } := by
  induction l generalizing r with
  | nil => simp
  | cons a l ih => simp [ih, poseStep]

theorem clsStep_foldl (X : Externals F TM) (b : BaseTemplate F TM) (idx : Nat) (l : List Nat)
    (r : ClsResult F) :
    l.foldl (clsStep X b idx) r =
      { scores := r.scores ++ l.map (fun (i : Nat) => b.top5 X idx (i * (b.tensorInfo X 1).dims.d 2))
        classes := r.classes ++ l.map (fun (i : Nat) =>
          X.floatToInt (b.top5 X idx (i * (b.tensorInfo X 1).dims.d 2 + 1))) } := by
  induction l generalizing r with
  | nil => simp
  | cons a l ih => simp [ih, clsStep]

theorem append_foldl_eq_map {α β : Type} (f : α → β) (l : List α) (acc : List β) :
    l.foldl (fun ks j => ks ++ [f j]) acc = acc ++ l.map f := by
  induction l generalizing acc with
  | nil => simp
  | cons a l ih => simp [ih]

theorem keyPointsAt_eq_map (X : Externals F TM) (b : BaseTemplate F TM) (idx i : Nat) :
    b.keyPointsAt X idx i =
      (List.range ((b.tensorInfo X 5).dims.d 2).toNat).map (b.keyPointAt X idx i) := by
  simp [BaseTemplate.keyPointsAt, append_foldl_eq_map]

theorem cropRow_foldl_extent (masks : Int → Nat) (maskWidth : Int) (l : List Nat)
    (acc : Mask × Int) :
    (l.foldl (cropRow masks maskWidth) acc).1.width = acc.1.width ∧
      (l.foldl (cropRow masks maskWidth) acc).1.height = acc.1.height := by
  induction l generalizing acc with
  | nil => simp
  | cons a l ih =>
    rw [List.foldl_cons]
    exact ⟨(ih _).1.trans rfl, (ih _).2.trans rfl⟩

theorem cropInto_extent (X : Externals F TM) (b : BaseTemplate F TM) (idx i : Nat)
    (mask : Mask) :
    (b.cropInto X idx i mask).width = mask.width ∧
      (b.cropInto X idx i mask).height = mask.height := by
  unfold BaseTemplate.cropInto
  exact cropRow_foldl_extent _ _ _ _

end DecoderLemmas

/-! ## The direct engine, step by step -/

section DirectLemmas

variable {F TM R : Type}

theorem pair_foldl_eq_map {α β γ : Type} (f : α → β) (g : α → γ) (l : List α)
    (acc : List β × List γ) :
    l.foldl (fun acc i => (acc.1 ++ [f i], acc.2 ++ [g i])) acc
      = (acc.1 ++ l.map f, acc.2 ++ l.map g) := by
  induction l generalizing acc with
  | nil => simp
  | cons a l ih => simp [ih]

theorem decodeLoop_eq (post : BaseTemplate F TM → Nat → R) (b : BaseTemplate F TM) (n : Nat) :
    decodeLoop post b n = ((List.range n).map (post b), (List.range n).map Call.postProcess) := by
  simp [decodeLoop, pair_foldl_eq_map]

theorem mapSlots_map {α β γ : Type} (f : Nat → α → β) (g : β → γ) (h : α → γ)
    (hf : ∀ j a, g (f j a) = h a) (j : Nat) (l : List α) :
    (mapSlots f j l).map g = l.map h := by
  induction l generalizing j with
  | nil => rfl
  | cons a l ih => simp [mapSlots, hf, ih]

theorem mapHead_map {α γ : Type} (f : α → α) (g : α → γ) (hf : ∀ a, g (f a) = g a)
    (l : List α) : (mapHead f l).map g = l.map g := by
  cases l with
  | nil => rfl
  | cons a l => simp [mapHead, hf]

theorem bindTensors_fst (X : Externals F TM) (dynamic : Bool) (k : Int)
    (ts : List (TensorInfo F)) (c : ExecContext) (log : List Call) :
    (bindTensors X dynamic k ts c log).1 = ts.map (tensorStep X dynamic k) := by
  induction ts generalizing c log with
  | nil => rfl
  | cons t ts ih => simp [bindTensors, ih]

theorem bindCalls_filter (dynamic : Bool) (t : TensorInfo F) :
    (bindCalls dynamic t).filter (fun c => c.isOutputCopy || c.isDecode) = [] := by
  unfold bindCalls
  split <;> simp [Call.isOutputCopy, Call.isDecode]

theorem bindTensors_issued (X : Externals F TM) (dynamic : Bool) (k : Int)
    (ts : List (TensorInfo F)) (c : ExecContext) (log : List Call) :
    (bindTensors X dynamic k ts c log).2.2.filter (fun c => c.isOutputCopy || c.isDecode)
      = log.filter (fun c => c.isOutputCopy || c.isDecode) := by
  induction ts generalizing c log with
  | nil => rfl
  | cons t ts ih =>
    simp only [bindTensors]
    rw [ih, List.filter_append, bindCalls_filter, List.append_nil]

theorem preProcess_desc (X : Externals F TM) (stream : Nat → Stream)
    (st : DeployTemplate F TM) (idx : Nat) (image : Image) :
    (DeployTemplate.preProcess X stream st idx image).tensorInfos.map TensorInfo.desc
      = st.tensorInfos.map TensorInfo.desc := by
  unfold DeployTemplate.preProcess
  split <;> (dsimp only; exact mapHead_map (writeInput _ _ _) TensorInfo.desc (fun _ => rfl) _)

theorem preProcess_issued (X : Externals F TM) (stream : Nat → Stream)
    (st : DeployTemplate F TM) (idx : Nat) (image : Image) :
    (DeployTemplate.preProcess X stream st idx image).issued.filter
        (fun c => c.isOutputCopy || c.isDecode)
      = st.issued.filter (fun c => c.isOutputCopy || c.isDecode) := by
  unfold DeployTemplate.preProcess
  split <;> simp [List.filter_append, Call.isOutputCopy, Call.isDecode]

theorem forSlots_preProcess (X : Externals F TM) (stream : Nat → Stream)
    (images : List Image) (st : DeployTemplate F TM) (i : Nat) :
    (forSlots (DeployTemplate.preProcess X stream) st i images).tensorInfos.map TensorInfo.desc
        = st.tensorInfos.map TensorInfo.desc ∧
      (forSlots (DeployTemplate.preProcess X stream) st i images).issued.filter
          (fun c => c.isOutputCopy || c.isDecode)
        = st.issued.filter (fun c => c.isOutputCopy || c.isDecode) := by
  induction images generalizing st i with
  | nil => exact ⟨rfl, rfl⟩
  | cons image rest ih =>
    simp only [forSlots]
    exact ⟨(ih _ _).1.trans (preProcess_desc X stream st i image),
      (ih _ _).2.trans (preProcess_issued X stream st i image)⟩

theorem sync_filter (n : Nat) :
    ((List.range n).map (fun (i : Nat) => Call.streamSynchronize (Stream.input i))).filter
      (fun c => c.isOutputCopy || c.isDecode) = [] := by
  simp [List.filter_eq_nil_iff, Call.isOutputCopy, Call.isDecode]

theorem prepare_desc (X : Externals F TM) (st : DeployTemplate F TM) (images : List Image) :
    (st.prepare X images).tensorInfos.map TensorInfo.desc
      = st.tensorInfos.map
          (fun t => (tensorStep X st.dynamic (images.length : Int) t).desc) := by
  unfold DeployTemplate.prepare
  simp only []
  split
  · simp only []
    rw [(forSlots_preProcess X Stream.input images _ 0).1]
    simp [bindTensors_fst]
  · split
    · simp [bindTensors_fst]
    · rw [preProcess_desc]
      simp [bindTensors_fst]

theorem prepare_issued (X : Externals F TM) (st : DeployTemplate F TM) (images : List Image) :
    (st.prepare X images).issued.filter (fun c => c.isOutputCopy || c.isDecode)
      = st.issued.filter (fun c => c.isOutputCopy || c.isDecode) := by
  unfold DeployTemplate.prepare
  simp only []
  split
  · simp only []
    rw [List.filter_append, sync_filter, List.append_nil,
      (forSlots_preProcess X Stream.input images _ 0).2]
    exact bindTensors_issued _ _ _ _ _ _
  · split
    · exact bindTensors_issued _ _ _ _ _ _
    · rw [preProcess_issued]
      exact bindTensors_issued _ _ _ _ _ _

end DirectLemmas

/-! ## Claims on `predict` -/

section PredictClaims

variable {F TM R : Type}

theorem predict_accepted (X : Externals F TM) (post : BaseTemplate F TM → Nat → R)
    (st : DeployTemplate F TM) (images : List Image)
    (h1 : 1 ≤ images.length) (h2 : (images.length : Int) ≤ st.batch)
    (hs : st.submitted X images = true) :
    (st.predict X post images).1
      = (List.range images.length).map (post (st.predict X post images).2.toBaseTemplate) := by
  have hv : ¬ ((images.length : Int) < 1 ∨ (images.length : Int) > st.batch) := by omega
  unfold DeployTemplate.submitted at hs
  simp only [DeployTemplate.predict, hv, if_false, hs, Bool.not_true, Bool.false_eq_true,
    decodeLoop_eq, Int.toNat_ofNat]

/-- C2. Direct engine, batch `predict`: for a sequence whose length `k` has `k < 1` or
`k > batch`, the call returns the empty sequence and the state it leaves is the state it was
given: descriptors, buffers, bindings, transforms and the record of issued calls are all
unchanged. -/
theorem predict_rejects_bad_batch (X : Externals F TM) (post : BaseTemplate F TM → Nat → R)
    (st : DeployTemplate F TM) (images : List Image)
    (h : (images.length : Int) < 1 ∨ (images.length : Int) > st.batch) :
    st.predict X post images = ([], st) := by
  simp only [DeployTemplate.predict, h, if_true]

theorem predict_rejects_bad_batch_witness :
    (sampleDeploy true false).predict (sampleExternals true)
        (postProcessDet (sampleExternals true)) []
        = ([], sampleDeploy true false) ∧
      (sampleDeploy true false).predict (sampleExternals true)
        (postProcessDet (sampleExternals true)) [sampleImage, sampleImage, sampleImage]
        = ([], sampleDeploy true false) :=
  ⟨predict_rejects_bad_batch (sampleExternals true) (postProcessDet (sampleExternals true))
      (sampleDeploy true false) [] (Or.inl (by decide)),
    predict_rejects_bad_batch (sampleExternals true) (postProcessDet (sampleExternals true))
      (sampleDeploy true false) [sampleImage, sampleImage, sampleImage] (Or.inr (by decide))⟩

theorem replay_guard (X : Externals F TM)
    (post : BaseTemplate F TM → Nat → R) (st : DeployCGTemplate F TM) (images : List Image)
    (h : (images.length : Int) ≠ st.batch) :
    st.predict X post images = ([], st) := by
  simp only [DeployCGTemplate.predict, h, ne_eq, not_false_eq_true, if_true]

/-- C3. Graph-replay engine, batch `predict`: for a sequence whose length differs from
`batch`, the call returns the empty sequence and the state it leaves is the state it was
given: transforms, the pinned image buffer, the graph with its node parameters and launch
count, and the record of issued calls are all unchanged. -/
theorem replay_predict_rejects_bad_batch (X : Externals F TM)
    (post : BaseTemplate F TM → Nat → R) (st : DeployCGTemplate F TM) (images : List Image)
    (h : (images.length : Int) ≠ st.batch) :
    st.predict X post images = ([], st) :=
  replay_guard X post st images h

theorem replay_predict_rejects_bad_batch_witness :
    (sampleReplay 2).predict (sampleExternals true) (postProcessDet (sampleExternals true))
        [sampleImage] = ([], sampleReplay 2) :=
  replay_predict_rejects_bad_batch (sampleExternals true)
    (postProcessDet (sampleExternals true)) (sampleReplay 2) [sampleImage] (by decide)

theorem setupTensorsStep_sizeOk (X : Externals F TM) (b : BaseTemplate F TM) (s : TensorSpec)
    (hb : ∀ t ∈ b.tensorInfos, t.sizeOk) :
    ∀ t ∈ (setupTensorsStep X b s).tensorInfos, t.sizeOk := by
  unfold setupTensorsStep
  split
  · intro t ht
    simp only [List.mem_append, List.mem_singleton] at ht
    rcases ht with ht | ht
    · exact hb t ht
    · subst ht
      rfl
  · intro t ht
    simp only [List.mem_append, List.mem_singleton] at ht
    rcases ht with ht | ht
    · exact hb t ht
    · subst ht
      rfl

theorem setupTensors_sizeOk (X : Externals F TM) (specs : List TensorSpec)
    (b : BaseTemplate F TM) (hb : ∀ t ∈ b.tensorInfos, t.sizeOk) :
    ∀ t ∈ (specs.foldl (setupTensorsStep X) b).tensorInfos, t.sizeOk := by
  induction specs generalizing b with
  | nil => exact hb
  | cons s specs ih => exact ih _ (setupTensorsStep_sizeOk X b s hb)

theorem construct_sizeOk (X : Externals F TM) (cudaMem : Bool) (specs : List TensorSpec) :
    ∀ t ∈ (DeployTemplate.construct X cudaMem specs).tensorInfos, t.sizeOk := by
  have h := setupTensors_sizeOk X specs (DeployTemplate.initial X cudaMem).toBaseTemplate
    (by intro t ht; simp [DeployTemplate.initial] at ht)
  exact h

theorem predict_desc (X : Externals F TM) (post : BaseTemplate F TM → Nat → R)
    (st : DeployTemplate F TM) (images : List Image)
    (h1 : 1 ≤ images.length) (h2 : (images.length : Int) ≤ st.batch) :
    (st.predict X post images).2.tensorInfos.map TensorInfo.desc
      = st.tensorInfos.map
          (fun t => (tensorStep X st.dynamic (images.length : Int) t).desc) := by
  have hv : ¬ ((images.length : Int) < 1 ∨ (images.length : Int) > st.batch) := by omega
  simp only [DeployTemplate.predict, hv, if_false]
  split
  · exact prepare_desc X st images
  · simp only []
    rw [mapSlots_map (runOutput X _ _) TensorInfo.desc TensorInfo.desc]
    · exact prepare_desc X st images
    · intro j a
      unfold runOutput
      split <;> rfl

theorem sizeOk_of_desc (l l2 : List (TensorInfo F))
    (h : l.map TensorInfo.desc = l2.map TensorInfo.desc) (h2 : ∀ t ∈ l2, t.sizeOk) :
    ∀ t ∈ l, t.sizeOk := by
  intro t ht
  have hm : t.desc ∈ l2.map TensorInfo.desc := h ▸ List.mem_map_of_mem TensorInfo.desc ht
  obtain ⟨u, hu, hd⟩ := List.mem_map.mp hm
  have hu2 := h2 u hu
  simp only [TensorInfo.desc, Prod.mk.injEq] at hd
  unfold TensorInfo.sizeOk at hu2 ⊢
  rw [← hd.1, ← hd.2.1, ← hd.2.2]
  exact hu2

theorem setBatch_self (dims : Dims) (k : Int) (h : dims.d 0 = k) : dims.setBatch k = dims := by
  cases dims with
  | mk n d =>
    simp only [Dims.setBatch, Dims.mk.injEq, true_and]
    funext i
    by_cases hi : i = 0
    · subst hi
      simpa using h.symm
    · simp [hi]

/-- C4, as amended. The byte size of a descriptor equals the product of its extents times
its element width (a) for every descriptor after construction.  On a dynamic model, for a
batch `predict` with `1 ≤ k ≤ batch`, (b) it holds for every descriptor of the table after
any number `j` of iterations of the loop that allocates and binds, when it held for every
descriptor before the call, and (c) it holds for every descriptor of the table the call
leaves, which is the table the output copies read.  On a model that is not dynamic (d) the
call sets every batch extent to `k` and leaves every byte size and element width as they
were, so that (e) the equality is preserved when every descriptor satisfied it with a batch
extent already equal to `k`. -/
theorem byte_size_invariant (X : Externals F TM) (post : BaseTemplate F TM → Nat → R) :
    (∀ cudaMem specs, ∀ t ∈ (DeployTemplate.construct X cudaMem specs).tensorInfos,
        t.sizeOk) ∧
    (∀ (st : DeployTemplate F TM) (images : List Image) (j : Nat), 1 ≤ images.length →
        (images.length : Int) ≤ st.batch → st.dynamic = true →
        (∀ t ∈ st.tensorInfos, t.sizeOk) →
        ∀ t ∈ (bindTensors X st.dynamic (images.length : Int) (st.tensorInfos.take j)
            st.engineCtx st.issued).1 ++ st.tensorInfos.drop j, t.sizeOk) ∧
    (∀ (st : DeployTemplate F TM) (images : List Image), 1 ≤ images.length →
        (images.length : Int) ≤ st.batch → st.dynamic = true →
        ∀ t ∈ (st.predict X post images).2.tensorInfos, t.sizeOk) ∧
    (∀ (st : DeployTemplate F TM) (images : List Image), 1 ≤ images.length →
        (images.length : Int) ≤ st.batch → st.dynamic = false →
        (st.predict X post images).2.tensorInfos.map TensorInfo.desc
          = st.tensorInfos.map
              (fun t => (t.dims.setBatch (images.length : Int), t.typeSize, t.bytes))) ∧
    (∀ (st : DeployTemplate F TM) (images : List Image), 1 ≤ images.length →
        (images.length : Int) ≤ st.batch → st.dynamic = false →
        (∀ t ∈ st.tensorInfos, t.sizeOk ∧ t.dims.d 0 = (images.length : Int)) →
        ∀ t ∈ (st.predict X post images).2.tensorInfos, t.sizeOk) := by
  refine ⟨construct_sizeOk X, ?_, ?_, ?_, ?_⟩
  · intro st images j _ _ hd hall t ht
    rw [bindTensors_fst, hd] at ht
    rcases List.mem_append.mp ht with ht | ht
    · obtain ⟨u, _, hu⟩ := List.mem_map.mp ht
      subst hu
      rfl
    · exact hall t (List.mem_of_mem_drop ht)
  · intro st images h1 h2 hd
    apply sizeOk_of_desc _ (st.tensorInfos.map (tensorStep X true (images.length : Int)))
    · rw [predict_desc X post st images h1 h2, hd, List.map_map]
      rfl
    · intro t ht
      obtain ⟨u, _, hu⟩ := List.mem_map.mp ht
      subst hu
      rfl
  · intro st images h1 h2 hd
    rw [predict_desc X post st images h1 h2, hd]
    rfl
  · intro st images h1 h2 hd hall
    apply sizeOk_of_desc _ st.tensorInfos
    · rw [predict_desc X post st images h1 h2, hd]
      apply List.map_congr_left
      intro t ht
      simp only [tensorStep, TensorInfo.desc, Bool.false_eq_true, if_false]
      rw [setBatch_self t.dims _ (hall t ht).2]
    · intro t ht
      exact (hall t ht).1

theorem byte_size_invariant_witness :
    (sampleDeploy true true).dynamic = true ∧
      ∀ t ∈ ((sampleDeploy true true).predict (sampleExternals true)
        (postProcessDet (sampleExternals true)) [sampleImage]).2.tensorInfos, t.sizeOk :=
  ⟨by decide,
    (byte_size_invariant (sampleExternals true) (postProcessDet (sampleExternals true))).2.2.1
      (sampleDeploy true true) [sampleImage] (by decide) (by decide) (by decide)⟩

/-- C4, the claim as stated fails on a model that is not dynamic: on the worked model of
batch 2, after a `predict` with one image the input descriptor has shape 1 × 3 × 2 × 2 of
4-byte elements, 48 bytes, and its byte size is still the 96 bytes of construction. -/
theorem byte_size_static_counterexample :
    (sampleDeploy true false).dynamic = false ∧ (sampleDeploy true false).batch = 2 ∧
      (((sampleDeploy true false).predict (sampleExternals true)
          (postProcessDet (sampleExternals true)) [sampleImage]).2.tensorInfos.map
        (fun t => (t.bytes, calculateVolume t.dims * t.typeSize))).head? = some (96, 48) := by
  decide


/-- C5. Single-image `predict`, on both engines: the result is the first element of the batch
`predict` of the one-element sequence when that sequence of results is not empty, and the
value `T()` when it is empty; hence on a graph-replay engine whose `batch` is not 1 the
single-image `predict` returns the value `T()` for every image. -/
theorem single_predict_is_sugar (X : Externals F TM) (post : BaseTemplate F TM → Nat → R)
    (dflt : R) :
    (∀ (st : DeployTemplate F TM) (image : Image),
        ((st.predict X post [image]).1 = [] →
          (st.predictOne X post dflt image).1 = dflt) ∧
        (∀ r rest, (st.predict X post [image]).1 = r :: rest →
          (st.predictOne X post dflt image).1 = r)) ∧
    (∀ (st : DeployCGTemplate F TM) (image : Image),
        ((st.predict X post [image]).1 = [] →
          (st.predictOne X post dflt image).1 = dflt) ∧
        (∀ r rest, (st.predict X post [image]).1 = r :: rest →
          (st.predictOne X post dflt image).1 = r)) ∧
    (∀ (st : DeployCGTemplate F TM) (image : Image), st.batch ≠ 1 →
        (st.predictOne X post dflt image).1 = dflt) := by
  refine ⟨?_, ?_, ?_⟩
  · intro st image
    constructor
    · intro h
      simp only [DeployTemplate.predictOne, h]
    · intro r rest h
      simp only [DeployTemplate.predictOne, h]
  · intro st image
    constructor
    · intro h
      simp only [DeployCGTemplate.predictOne, h]
    · intro r rest h
      simp only [DeployCGTemplate.predictOne, h]
  · intro st image hb
    have hne : ((([image] : List Image).length : Nat) : Int) ≠ st.batch := by
      intro h
      apply hb
      rw [← h]
      rfl
    have h := replay_guard X post st [image] hne
    simp only [DeployCGTemplate.predictOne, h]

theorem single_predict_is_sugar_witness :
    (sampleReplay 2).batch ≠ 1 ∧
      ((sampleReplay 2).predictOne (sampleExternals true)
        (postProcessDet (sampleExternals true)) ⟨0, [], [], []⟩ sampleImage).1
        = ⟨0, [], [], []⟩ :=
  ⟨by decide,
    (single_predict_is_sugar (sampleExternals true)
      (postProcessDet (sampleExternals true)) ⟨0, [], [], []⟩).2.2
      (sampleReplay 2) sampleImage (by decide)⟩

/-- C10. Direct engine, submission failure: for a sequence of `k` images with
`1 ≤ k ≤ batch` whose forward-pass submission reports failure, the call returns the empty
sequence, and the output copies and decoder invocations on record after the call are those
that were on record before it: none is issued by the call. -/
theorem predict_submission_failure (X : Externals F TM) (post : BaseTemplate F TM → Nat → R)
    (st : DeployTemplate F TM) (images : List Image)
    (h1 : 1 ≤ images.length) (h2 : (images.length : Int) ≤ st.batch)
    (hs : st.submitted X images = false) :
    (st.predict X post images).1 = [] ∧
      (st.predict X post images).2.issued.filter (fun c => c.isOutputCopy || c.isDecode)
        = st.issued.filter (fun c => c.isOutputCopy || c.isDecode) := by
  have hv : ¬ ((images.length : Int) < 1 ∨ (images.length : Int) > st.batch) := by omega
  unfold DeployTemplate.submitted at hs
  simp only [DeployTemplate.predict, hv, if_false, hs, Bool.not_false, if_true, true_and]
  rw [List.filter_append, prepare_issued]
  simp [Call.isOutputCopy, Call.isDecode]

theorem predict_submission_failure_witness :
    ((sampleDeploy false false).predict (sampleExternals false)
        (postProcessDet (sampleExternals false)) [sampleImage, sampleImage]).1 = [] ∧
      ((sampleDeploy false false).predict (sampleExternals false)
          (postProcessDet (sampleExternals false)) [sampleImage, sampleImage]).2.issued.filter
          (fun c => c.isOutputCopy || c.isDecode)
        = (sampleDeploy false false).issued.filter (fun c => c.isOutputCopy || c.isDecode) :=
  predict_submission_failure (sampleExternals false) (postProcessDet (sampleExternals false))
    (sampleDeploy false false) [sampleImage, sampleImage] (by decide) (by decide) rfl


end PredictClaims

/-! ## Claims on the decoders -/

section DecoderClaims

variable {F TM : Type}

/-- C6, as amended. Segmentation decoder: for a slot whose padding offsets `(dw, dh)`
satisfy `2 * dw ≤ maskWidth` and `2 * dh ≤ maskHeight`, the decoder returns a result and
every cropped mask has width `maskWidth - 2 * dw` and height `maskHeight - 2 * dh`, where
`maskWidth` and `maskHeight` are the fourth and third extents of the mask tensor (output 5);
these are `width - 2 * dw` and `height - 2 * dh` of the model input when the mask tensor
has the extents of the model input. -/
theorem seg_mask_extent (X : Externals F TM) (b : BaseTemplate F TM) (idx : Nat)
    (hw : 2 * X.tmDw (b.transforms.get idx) ≤ (b.tensorInfo X 5).dims.d 3)
    (hh : 2 * X.tmDh (b.transforms.get idx) ≤ (b.tensorInfo X 5).dims.d 2) :
    ∃ r, postProcessSeg X b idx = some r ∧
      r.masks.map (fun m => (m.width, m.height))
        = List.replicate (b.count X idx).toNat
            ((b.tensorInfo X 5).dims.d 3 - 2 * X.tmDw (b.transforms.get idx),
             (b.tensorInfo X 5).dims.d 2 - 2 * X.tmDh (b.transforms.get idx)) ∧
      ((b.tensorInfo X 5).dims.d 3 = b.width → (b.tensorInfo X 5).dims.d 2 = b.height →
        r.masks.map (fun m => (m.width, m.height))
          = List.replicate (b.count X idx).toNat
              (b.width - 2 * X.tmDw (b.transforms.get idx),
               b.height - 2 * X.tmDh (b.transforms.get idx))) := by
  have hok : 0 ≤ ((b.tensorInfo X 5).dims.d 3 - 2 * X.tmDw (b.transforms.get idx))
      * ((b.tensorInfo X 5).dims.d 2 - 2 * X.tmDh (b.transforms.get idx)) :=
    mul_nonneg (by omega) (by omega)
  refine ⟨_, by simp only [postProcessSeg]; exact segStep_foldl X b idx hok _ _, ?_⟩
  have key : (List.map (fun (i : Nat) => b.cropInto X idx i
        { width := (b.tensorInfo X 5).dims.d 3 - 2 * X.tmDw (b.transforms.get idx)
          height := (b.tensorInfo X 5).dims.d 2 - 2 * X.tmDh (b.transforms.get idx)
          data := fun _ => 0 }) (List.range (b.count X idx).toNat)).map
        (fun m => (m.width, m.height))
      = List.replicate (b.count X idx).toNat
          ((b.tensorInfo X 5).dims.d 3 - 2 * X.tmDw (b.transforms.get idx),
           (b.tensorInfo X 5).dims.d 2 - 2 * X.tmDh (b.transforms.get idx)) := by
    rw [List.eq_replicate_iff]
    constructor
    · simp
    · intro p hp
      simp only [List.map_map, List.mem_map, Function.comp_apply] at hp
      obtain ⟨i, _, hi⟩ := hp
      rw [← hi, (cropInto_extent X b idx i _).1, (cropInto_extent X b idx i _).2]
  simp only [List.nil_append]
  refine ⟨key, ?_⟩
  intro hw2 hh2
  rw [key, hw2, hh2]

theorem seg_mask_extent_witness :
    ∃ r, postProcessSeg (sampleExternals true) (sampleBase [1, 1] [1, 1, 8, 8] 0 1) 0
        = some r ∧
      r.masks.map (fun m => (m.width, m.height)) = [(8, 6), (8, 6)] ∧
      ((8 : Int) = 8 → (8 : Int) = 8 →
        r.masks.map (fun m => (m.width, m.height)) = [(8, 6), (8, 6)]) :=
  seg_mask_extent (sampleExternals true) (sampleBase [1, 1] [1, 1, 8, 8] 0 1) 0
    (by decide) (by decide)

/-- C6, the claim as stated fails: on a model of input 8 × 8 whose mask tensor is 4 × 4, with
padding offsets `(0, 1)`, the two masks of slot 0 are 4 × 2, not 8 × 6. -/
theorem seg_mask_extent_counterexample :
    (sampleBase [1, 1] [1, 1, 4, 4] 0 1).width = 8 ∧
      (sampleBase [1, 1] [1, 1, 4, 4] 0 1).height = 8 ∧
      (postProcessSeg (sampleExternals true) (sampleBase [1, 1] [1, 1, 4, 4] 0 1) 0).map
        (fun r => r.masks.map (fun m => (m.width, m.height))) = some [(4, 2), (4, 2)] := by
  decide

/-- C7, as amended. Count-gated decoders: when the count read for the slot is `n ≥ 0`, the
detection, oriented-box and pose decoders return a result that records `num = n` and whose
box, score and class sequences (and keypoint-list sequence) have `n` entries each; so does
the segmentation decoder, with `n` masks, for a slot whose padding offsets satisfy
`2 * dw ≤ maskWidth` and `2 * dh ≤ maskHeight`; when `n = 0` each of the four decoders
returns the empty result whatever the box, score, class, mask and keypoint regions hold. -/
theorem count_gated_decoders (X : Externals F TM) (b : BaseTemplate F TM) (idx : Nat) (n : Int)
    (hc : b.count X idx = n) (hn : 0 ≤ n) :
    ((postProcessDet X b idx).num = n ∧ ((postProcessDet X b idx).boxes.length : Int) = n ∧
        ((postProcessDet X b idx).scores.length : Int) = n ∧
        ((postProcessDet X b idx).classes.length : Int) = n) ∧
    ((postProcessOBB X b idx).num = n ∧ ((postProcessOBB X b idx).boxes.length : Int) = n ∧
        ((postProcessOBB X b idx).scores.length : Int) = n ∧
        ((postProcessOBB X b idx).classes.length : Int) = n) ∧
    (2 * X.tmDw (b.transforms.get idx) ≤ (b.tensorInfo X 5).dims.d 3 →
      2 * X.tmDh (b.transforms.get idx) ≤ (b.tensorInfo X 5).dims.d 2 →
      ∃ r, postProcessSeg X b idx = some r ∧
        r.num = n ∧ (r.boxes.length : Int) = n ∧ (r.scores.length : Int) = n ∧
        (r.classes.length : Int) = n ∧ (r.masks.length : Int) = n) ∧
    ((postProcessPose X b idx).num = n ∧ ((postProcessPose X b idx).boxes.length : Int) = n ∧
        ((postProcessPose X b idx).scores.length : Int) = n ∧
        ((postProcessPose X b idx).classes.length : Int) = n ∧
        ((postProcessPose X b idx).kpts.length : Int) = n) ∧
    (n = 0 →
      postProcessDet X b idx = ⟨0, [], [], []⟩ ∧ postProcessOBB X b idx = ⟨0, [], [], []⟩ ∧
      postProcessSeg X b idx = some ⟨0, [], [], [], []⟩ ∧
      postProcessPose X b idx = ⟨0, [], [], [], []⟩) := by
  have hl : (n.toNat : Int) = n := Int.toNat_of_nonneg hn
  refine ⟨?_, ?_, ?_, ?_, ?_⟩
  · simp only [postProcessDet, detStep_foldl, List.nil_append, List.length_map,
      List.length_range, hl, hc, and_self]
  · simp only [postProcessOBB, obbStep_foldl, List.nil_append, List.length_map,
      List.length_range, hl, hc, and_self]
  · intro hw hh
    have hok : 0 ≤ ((b.tensorInfo X 5).dims.d 3 - 2 * X.tmDw (b.transforms.get idx))
        * ((b.tensorInfo X 5).dims.d 2 - 2 * X.tmDh (b.transforms.get idx)) :=
      mul_nonneg (by omega) (by omega)
    refine ⟨_, by simp only [postProcessSeg]; exact segStep_foldl X b idx hok _ _, ?_⟩
    simp only [List.nil_append, List.length_map, List.length_range, hl, hc, and_self]
  · simp only [postProcessPose, poseStep_foldl, List.nil_append, List.length_map,
      List.length_range, hl, hc, and_self]
  · intro h0
    subst h0
    simp only [postProcessDet, postProcessOBB, postProcessSeg, postProcessPose, hc,
      Int.toNat_zero, List.range_zero, List.foldl_nil, and_self]

theorem count_gated_decoders_witness :
    (postProcessDet (sampleExternals true) (sampleBase [1, 1] [1, 1, 4, 4] 0 1) 0).num = 2 ∧
      ((postProcessDet (sampleExternals true)
        (sampleBase [1, 1] [1, 1, 4, 4] 0 1) 0).boxes.length : Int) = 2 ∧
      ∃ r, postProcessSeg (sampleExternals true) (sampleBase [1, 1] [1, 1, 4, 4] 0 1) 0
          = some r ∧
        r.num = 2 ∧ (r.boxes.length : Int) = 2 ∧ (r.scores.length : Int) = 2 ∧
        (r.classes.length : Int) = 2 ∧ (r.masks.length : Int) = 2 :=
  ⟨(count_gated_decoders (sampleExternals true) (sampleBase [1, 1] [1, 1, 4, 4] 0 1) 0 2 rfl
      (by decide)).1.1,
    (count_gated_decoders (sampleExternals true) (sampleBase [1, 1] [1, 1, 4, 4] 0 1) 0 2 rfl
      (by decide)).1.2.1,
    (count_gated_decoders (sampleExternals true) (sampleBase [1, 1] [1, 1, 4, 4] 0 1) 0 2 rfl
      (by decide)).2.2.1 (by decide) (by decide)⟩

/-- C7, the claim as stated fails for the segmentation decoder: on a model whose mask tensor
is 4 × 4, with padding offsets `(3, 0)` (those of a 2 × 8 image on the 8 × 8 input) and a
count of 2, the construction `Mask(-2, 4)` throws and the decoder returns no result. -/
theorem count_gated_seg_counterexample :
    (sampleExternals true).tmUpdate (0, 0) 2 8 8 8 = (3, 0) ∧
      (sampleBase [1, 1] [1, 1, 4, 4] 3 0).count (sampleExternals true) 0 = 2 ∧
      (postProcessSeg (sampleExternals true)
        (sampleBase [1, 1] [1, 1, 4, 4] 3 0) 0).isSome = false := by
  decide

/-- C8, as amended. Pose decoder: every detected instance gets `nkpt` keypoints (`nkpt` the
third extent of the keypoint tensor); keypoint `j` of instance `i` has its `(x, y)` read at
`j * ndim` and `j * ndim + 1` of the instance's block and mapped through the slot's
transform; it carries no confidence when `ndim = 2`, and for every other `ndim` it carries
the value at `j * ndim + 2` as its confidence. -/
theorem pose_keypoints (X : Externals F TM) (b : BaseTemplate F TM) (idx : Nat) :
    (postProcessPose X b idx).kpts
        = (List.range (b.count X idx).toNat).map (fun (i : Nat) =>
            (List.range ((b.tensorInfo X 5).dims.d 2).toNat).map (b.keyPointAt X idx i)) ∧
      (∀ i j : Nat,
        ((b.keyPointAt X idx i j).x, (b.keyPointAt X idx i j).y)
            = X.tmTransform (b.transforms.get idx)
                (b.kpts X idx (i * (b.tensorInfo X 5).dims.d 2 * (b.tensorInfo X 5).dims.d 3
                  + j * (b.tensorInfo X 5).dims.d 3))
                (b.kpts X idx (i * (b.tensorInfo X 5).dims.d 2 * (b.tensorInfo X 5).dims.d 3
                  + j * (b.tensorInfo X 5).dims.d 3 + 1)) ∧
          (b.keyPointAt X idx i j).conf
            = (if (b.tensorInfo X 5).dims.d 3 = 2 then none
              else some (b.kpts X idx
                (i * (b.tensorInfo X 5).dims.d 2 * (b.tensorInfo X 5).dims.d 3
                  + j * (b.tensorInfo X 5).dims.d 3 + 2))) ∧
          ((b.keyPointAt X idx i j).conf.isSome = true ↔ (b.tensorInfo X 5).dims.d 3 ≠ 2)) := by
  constructor
  · simp only [postProcessPose, poseStep_foldl, List.nil_append]
    apply List.map_congr_left
    intro i _
    exact keyPointsAt_eq_map X b idx i
  · intro i j
    unfold BaseTemplate.keyPointAt
    by_cases h : (b.tensorInfo X 5).dims.d 3 = 2 <;> simp [h]

/-- C8, the claim as stated fails: with four values per keypoint (`ndim = 4`) the keypoints
of slot 0 carry a confidence, the third value of each block. -/
theorem pose_keypoints_counterexample :
    ((sampleBase [1, 1] [1, 1, 1, 4] 0 0).tensorInfo (sampleExternals true) 5).dims.d 3 = 4 ∧
      (postProcessPose (sampleExternals true) (sampleBase [1, 1] [1, 1, 1, 4] 0 0) 0).kpts.map
        (List.map (fun p => p.conf)) = [[some 2], [some 6]] := by
  decide

/-- C9. Classification decoder: with `K` and `stride` the second and third extents of output
1, the result of slot `idx` has `K` scores and `K` class ids; score `i` is the float at
offset `idx * K * stride + i * stride` of the host region and class id `i` is the float at
the next offset, converted to `int`; the result does not depend on the transform table. -/
theorem cls_decoder (X : Externals F TM) (b : BaseTemplate F TM) (idx : Nat)
    (hK : 0 ≤ (b.tensorInfo X 1).dims.d 1) :
    ((postProcessCls X b idx).scores.length : Int) = (b.tensorInfo X 1).dims.d 1 ∧
      ((postProcessCls X b idx).classes.length : Int) = (b.tensorInfo X 1).dims.d 1 ∧
      (postProcessCls X b idx).scores
        = (List.range ((b.tensorInfo X 1).dims.d 1).toNat).map (fun (i : Nat) =>
            (b.tensorInfo X 1).buffer.host.asFloat
              ((idx : Int) * (b.tensorInfo X 1).dims.d 1 * (b.tensorInfo X 1).dims.d 2
                + i * (b.tensorInfo X 1).dims.d 2)) ∧
      (postProcessCls X b idx).classes
        = (List.range ((b.tensorInfo X 1).dims.d 1).toNat).map (fun (i : Nat) =>
            X.floatToInt ((b.tensorInfo X 1).buffer.host.asFloat
              ((idx : Int) * (b.tensorInfo X 1).dims.d 1 * (b.tensorInfo X 1).dims.d 2
                + (i * (b.tensorInfo X 1).dims.d 2 + 1)))) ∧
      (∀ tr : Vec TM, postProcessCls X { b with transforms := tr } idx
        = postProcessCls X b idx) := by
  have hl : (((b.tensorInfo X 1).dims.d 1).toNat : Int) = (b.tensorInfo X 1).dims.d 1 :=
    Int.toNat_of_nonneg hK
  refine ⟨?_, ?_, ?_, ?_, ?_⟩
  · simp only [postProcessCls, clsStep_foldl, List.nil_append, List.length_map,
      List.length_range, hl]
  · simp only [postProcessCls, clsStep_foldl, List.nil_append, List.length_map,
      List.length_range, hl]
  · simp only [postProcessCls, clsStep_foldl, List.nil_append, BaseTemplate.top5]
  · simp only [postProcessCls, clsStep_foldl, List.nil_append, BaseTemplate.top5]
  · intro tr
    rfl

theorem cls_decoder_witness :
    ((postProcessCls (sampleExternals true)
        (sampleBase [1, 3, 2] [1, 1, 1, 1] 0 0) 0).scores.length : Int) = 3 ∧
      (postProcessCls (sampleExternals true) (sampleBase [1, 3, 2] [1, 1, 1, 1] 0 0) 0).scores
        = [0, 2, 4] ∧
      (postProcessCls (sampleExternals true) (sampleBase [1, 3, 2] [1, 1, 1, 1] 0 0) 0).classes
        = [1, 3, 5] :=
  ⟨(cls_decoder (sampleExternals true) (sampleBase [1, 3, 2] [1, 1, 1, 1] 0 0) 0
      (by decide)).1,
    (cls_decoder (sampleExternals true) (sampleBase [1, 3, 2] [1, 1, 1, 1] 0 0) 0
      (by decide)).2.2.1,
    (cls_decoder (sampleExternals true) (sampleBase [1, 3, 2] [1, 1, 1, 1] 0 0) 0
      (by decide)).2.2.2.1⟩

end DecoderClaims

/-! ## Idempotence of batch `predict` on the direct engine -/

section Idempotence

variable {F TM R : Type}

theorem memcpy_memcpy (dst src : Region F) (n : Int) :
    (dst.memcpy src n).memcpy src n = dst.memcpy src n := by
  simp only [Region.memcpy, Region.mk.injEq]
  refine ⟨?_, ?_, ?_⟩ <;> funext i <;> split <;> rfl

theorem Vec.set_get_self {T : Type} (v : Vec T) (i : Nat) : v.set i (v.get i) = v := by
  cases v with
  | mk size data =>
    simp only [Vec.set, Vec.get, Vec.mk.injEq, true_and]
    funext j
    split
    · next h => rw [h]
    · rfl

theorem Vec.get_set_self {T : Type} (v : Vec T) (i : Nat) (x : T) : (v.set i x).get i = x := by
  simp [Vec.set, Vec.get]

theorem Vec.get_set_ne {T : Type} (v : Vec T) (i j : Nat) (x : T) (h : i ≠ j) :
    (v.set j x).get i = v.get i := by
  simp [Vec.set, Vec.get, h]

theorem stageImage_capacity (X : Externals F TM) (b : Buffer F) (image : Image) (n : Int) :
    (stageImage X b image n).capacity = (X.allocate b n).capacity := rfl

theorem stageImage_fixed (X : Externals F TM) (s : Buffer F) (image : Image) (n : Int)
    (hk : X.allocate s n = s)
    (hh : ∀ k, 0 ≤ k → k < n → s.host.asByte k = image.rgb k)
    (hd : s.device.memcpy s.host n = s.device) :
    stageImage X s image n = s := by
  have hhost : ({ s.host with
      asByte := fun k => if 0 ≤ k ∧ k < n then image.rgb k else s.host.asByte k } : Region F)
      = s.host := by
    cases hs : s.host with
    | mk ai af ab =>
      simp only [Region.mk.injEq, true_and]
      funext k
      split
      · next h =>
        have := hh k h.1 h.2
        rw [hs] at this
        exact this.symm
      · rfl
  unfold stageImage
  simp only [hk, hhost, hd]

theorem stageImage_stageImage (X : Externals F TM) (hA : X.allocateKeeps) (b : Buffer F)
    (image : Image) (n : Int) :
    stageImage X (stageImage X b image n) image n = stageImage X b image n := by
  apply stageImage_fixed
  · exact hA.2 _ _ (by rw [stageImage_capacity]; exact hA.1 b n)
  · intro k h0 h1
    simp only [stageImage, h0, h1, and_self, if_true]
  · simp only [stageImage]
    exact memcpy_memcpy _ _ _

theorem eraseOutput_input (t : TensorInfo F) : t.eraseOutput.input = t.input := by
  unfold TensorInfo.eraseOutput
  split <;> rfl

theorem eraseOutput_of_input (t : TensorInfo F) (h : t.input = true) : t.eraseOutput = t := by
  simp [TensorInfo.eraseOutput, h]

theorem eq_of_eraseOutput_eq (t u : TensorInfo F) (h : t.eraseOutput = u.eraseOutput)
    (hu : u.input = true) : t = u := by
  have ht : t.input = true := by
    rw [← eraseOutput_input t, h, eraseOutput_input u, hu]
  rw [eraseOutput_of_input t ht, eraseOutput_of_input u hu] at h
  exact h

theorem eraseOutput_writeInput (off size : Int) (w : Int → F) (t : TensorInfo F)
    (h : t.input = false) : (writeInput off size w t).eraseOutput = t.eraseOutput := by
  simp [TensorInfo.eraseOutput, writeInput, h]

theorem slot_disjoint (i j : Nat) (size x : Int) (hij : i ≠ j)
    (h1 : (i : Int) * size ≤ x) (h2 : x < (i : Int) * size + size)
    (h3 : (j : Int) * size ≤ x) (h4 : x < (j : Int) * size + size) : False := by
  have hs : 0 < size := by omega
  have ha : (i : Int) * size < ((j : Int) + 1) * size := by
    have : ((j : Int) + 1) * size = (j : Int) * size + size := by ring
    omega
  have hb : (j : Int) * size < ((i : Int) + 1) * size := by
    have : ((i : Int) + 1) * size = (i : Int) * size + size := by ring
    omega
  have ha2 := lt_of_mul_lt_mul_right ha (le_of_lt hs)
  have hb2 := lt_of_mul_lt_mul_right hb (le_of_lt hs)
  omega

theorem preProcess_fields (X : Externals F TM) (stream : Nat → Stream)
    (st : DeployTemplate F TM) (idx : Nat) (image : Image) :
    (DeployTemplate.preProcess X stream st idx image).cudaMem = st.cudaMem ∧
      (DeployTemplate.preProcess X stream st idx image).width = st.width ∧
      (DeployTemplate.preProcess X stream st idx image).height = st.height ∧
      (DeployTemplate.preProcess X stream st idx image).dynamic = st.dynamic ∧
      (DeployTemplate.preProcess X stream st idx image).batch = st.batch := by
  unfold DeployTemplate.preProcess
  split <;> exact ⟨rfl, rfl, rfl, rfl, rfl⟩

theorem preProcess_slotDone (X : Externals F TM) (hA : X.allocateKeeps) (hU : X.updateStable)
    (stream : Nat → Stream) (st : DeployTemplate F TM) (i : Nat) (image : Image) :
    (DeployTemplate.preProcess X stream st i image).slotDone X i image := by
  unfold DeployTemplate.preProcess
  split
  · next hc =>
    refine ⟨?_, ?_, ?_⟩
    · simp only [Vec.get_set_self]
      exact hU _ _ _ _ _
    · intro h
      simp only [hc] at h
      exact absurd h (by decide)
    · intro t rest hts hin x h1 h2
      simp only [] at hts
      cases hl : st.tensorInfos with
      | nil => rw [hl] at hts; simp [mapHead] at hts
      | cons t0 r =>
        rw [hl] at hts
        simp only [mapHead, List.cons.injEq] at hts
        rw [← hts.1]
        simp only [writeInput, h1, h2, and_self, if_true, Vec.get_set_self, hc]
  · next hc =>
    refine ⟨?_, ?_, ?_⟩
    · simp only [Vec.get_set_self]
      exact hU _ _ _ _ _
    · intro _
      simp only [Vec.get_set_self]
      exact stageImage_stageImage X hA _ _ _
    · intro t rest hts hin x h1 h2
      simp only [] at hts
      cases hl : st.tensorInfos with
      | nil => rw [hl] at hts; simp [mapHead] at hts
      | cons t0 r =>
        rw [hl] at hts
        simp only [mapHead, List.cons.injEq] at hts
        rw [← hts.1]
        simp only [writeInput, h1, h2, and_self, if_true, Vec.get_set_self, hc]
        rfl

theorem preProcess_slotDone_other (X : Externals F TM) (stream : Nat → Stream)
    (st : DeployTemplate F TM) (i j : Nat) (image other : Image) (hij : i ≠ j)
    (h : st.slotDone X i image) :
    (DeployTemplate.preProcess X stream st j other).slotDone X i image := by
  obtain ⟨h1, h2, h3⟩ := h
  unfold DeployTemplate.preProcess
  split
  · next hc =>
    refine ⟨?_, ?_, ?_⟩
    · simp only [Vec.get_set_ne _ _ _ _ hij]
      exact h1
    · intro hf
      simp only [hc] at hf
      exact absurd hf (by decide)
    · intro t rest hts hin x hx1 hx2
      simp only [] at hts hx1 hx2
      cases hl : st.tensorInfos with
      | nil => rw [hl] at hts; simp [mapHead] at hts
      | cons t0 r =>
        rw [hl] at hts
        simp only [mapHead, List.cons.injEq] at hts
        have hin0 : t0.input = true := by rw [← hts.1] at hin; exact hin
        have hold := h3 t0 r hl hin0 x hx1 hx2
        rw [← hts.1]
        have hno : ¬ ((j : Int) * (3 * st.height * st.width) ≤ x ∧
            x < (j : Int) * (3 * st.height * st.width) + 3 * st.height * st.width) :=
          fun hh => slot_disjoint i j _ x hij hx1 hx2 hh.1 hh.2
        simp only [writeInput, hno, if_false, Vec.get_set_ne _ _ _ _ hij]
        exact hold
  · next hc =>
    refine ⟨?_, ?_, ?_⟩
    · simp only [Vec.get_set_ne _ _ _ _ hij]
      exact h1
    · intro hf
      simp only [Vec.get_set_ne _ _ _ _ hij]
      exact h2 hf
    · intro t rest hts hin x hx1 hx2
      simp only [] at hts hx1 hx2
      cases hl : st.tensorInfos with
      | nil => rw [hl] at hts; simp [mapHead] at hts
      | cons t0 r =>
        rw [hl] at hts
        simp only [mapHead, List.cons.injEq] at hts
        have hin0 : t0.input = true := by rw [← hts.1] at hin; exact hin
        have hold := h3 t0 r hl hin0 x hx1 hx2
        rw [← hts.1]
        have hno : ¬ ((j : Int) * (3 * st.height * st.width) ≤ x ∧
            x < (j : Int) * (3 * st.height * st.width) + 3 * st.height * st.width) :=
          fun hh => slot_disjoint i j _ x hij hx1 hx2 hh.1 hh.2
        simp only [writeInput, hno, if_false, Vec.get_set_ne _ _ _ _ hij]
        exact hold

theorem writeInput_fixed (off size : Int) (w : Int → F) (t : TensorInfo F)
    (h : ∀ x, off ≤ x → x < off + size → t.buffer.device.asFloat x = w (x - off)) :
    writeInput off size w t = t := by
  have hf : (fun k => if off ≤ k ∧ k < off + size then w (k - off)
      else t.buffer.device.asFloat k) = t.buffer.device.asFloat := by
    funext k
    split
    · next hk => exact (h k hk.1 hk.2).symm
    · rfl
  unfold writeInput
  rw [hf]

theorem preProcess_core (X : Externals F TM) (stream : Nat → Stream)
    (st : DeployTemplate F TM) (i : Nat) (image : Image) (h : st.slotDone X i image) :
    (DeployTemplate.preProcess X stream st i image).core = st.core := by
  obtain ⟨h1, h2, h3⟩ := h
  have hhead : ∀ (w : Int → F),
      (∀ t rest, st.tensorInfos = t :: rest → t.input = true → ∀ x : Int,
        (i : Int) * (3 * st.height * st.width) ≤ x →
        x < (i : Int) * (3 * st.height * st.width) + 3 * st.height * st.width →
        t.buffer.device.asFloat x = w (x - (i : Int) * (3 * st.height * st.width))) →
      (mapHead (writeInput ((i : Int) * (3 * st.height * st.width))
          (3 * st.height * st.width) w) st.tensorInfos).map TensorInfo.eraseOutput
        = st.tensorInfos.map TensorInfo.eraseOutput := by
    intro w hw
    cases hl : st.tensorInfos with
    | nil => rfl
    | cons t0 r =>
      simp only [mapHead, List.map_cons, List.cons.injEq, and_true]
      cases hin : t0.input with
      | true => rw [writeInput_fixed _ _ _ _ (hw t0 r hl hin)]
      | false => exact eraseOutput_writeInput _ _ _ _ hin
  unfold DeployTemplate.preProcess
  split
  · next hc =>
    simp only [DeployTemplate.core, h1, Vec.set_get_self, Prod.mk.injEq, true_and]
    apply hhead
    intro t rest hts hin x hx1 hx2
    have := h3 t rest hts hin x hx1 hx2
    simp only [hc, if_true] at this
    exact this
  · next hc =>
    have hc2 : st.cudaMem = false := by simpa using hc
    simp only [DeployTemplate.core, h1, h2 hc2, Vec.set_get_self, Prod.mk.injEq, true_and]
    apply hhead
    intro t rest hts hin x hx1 hx2
    have := h3 t rest hts hin x hx1 hx2
    simp only [hc2, Bool.false_eq_true, if_false] at this
    exact this

theorem slotDone_of_core (X : Externals F TM) (a b : DeployTemplate F TM) (i : Nat)
    (image : Image) (hab : a.core = b.core) (h : a.slotDone X i image) :
    b.slotDone X i image := by
  obtain ⟨h1, h2, h3⟩ := h
  simp only [DeployTemplate.core, Prod.mk.injEq] at hab
  obtain ⟨hc, hw, hh, hT, hB, hts⟩ := hab
  refine ⟨?_, ?_, ?_⟩
  · rw [← hT, ← hw, ← hh]
    exact h1
  · intro hf
    rw [← hB]
    exact h2 (by rw [hc]; exact hf)
  · intro t rest hb hin x hx1 hx2
    rw [hb] at hts
    cases ha : a.tensorInfos with
    | nil => rw [ha] at hts; simp at hts
    | cons ta ra =>
      rw [ha] at hts
      simp only [List.map_cons, List.cons.injEq] at hts
      have hta : ta = t := eq_of_eraseOutput_eq ta t hts.1 hin
      rw [← hw, ← hh] at hx1 hx2 ⊢
      rw [← hT, ← hB, ← hc]
      have := h3 ta ra ha (by rw [hta]; exact hin) x hx1 hx2
      rw [hta] at this
      exact this

theorem forSlots_core (X : Externals F TM) (stream : Nat → Stream) (images : List Image)
    (st : DeployTemplate F TM) (start : Nat)
    (h : ∀ j image, images[j]? = some image → st.slotDone X (start + j) image) :
    (forSlots (DeployTemplate.preProcess X stream) st start images).core = st.core := by
  induction images generalizing st start with
  | nil => rfl
  | cons image rest ih =>
    simp only [forSlots]
    have h0 : st.slotDone X start image := h 0 image (by simp)
    have hc := preProcess_core X stream st start image h0
    rw [ih _ _ ?_, hc]
    intro j img hj
    apply slotDone_of_core X st _ _ _ hc.symm
    have := h (j + 1) img (by simpa using hj)
    rw [show start + 1 + j = start + (j + 1) by omega]
    exact this

theorem forSlots_slotDone (X : Externals F TM) (hA : X.allocateKeeps) (hU : X.updateStable)
    (stream : Nat → Stream) (images : List Image) (st : DeployTemplate F TM) (start : Nat)
    (i : Nat) (image : Image)
    (h : (i < start ∧ st.slotDone X i image) ∨ ∃ j, i = start + j ∧ images[j]? = some image) :
    (forSlots (DeployTemplate.preProcess X stream) st start images).slotDone X i image := by
  induction images generalizing st start with
  | nil =>
    rcases h with h | ⟨j, _, hj⟩
    · exact h.2
    · simp at hj
  | cons a rest ih =>
    simp only [forSlots]
    apply ih
    rcases h with h | ⟨j, hi, hj⟩
    · left
      exact ⟨by omega, preProcess_slotDone_other X stream st i start image a (by omega) h.2⟩
    · cases j with
      | zero =>
        left
        simp only [List.getElem?_cons_zero, Option.some.injEq] at hj
        subst hj
        simp only [Nat.add_zero] at hi
        subst hi
        exact ⟨by omega, preProcess_slotDone X hA hU stream st i a⟩
      | succ j =>
        right
        exact ⟨j, by omega, by simpa using hj⟩

theorem prepare_eq_forSlots (X : Externals F TM) (st : DeployTemplate F TM)
    (images : List Image) (h1 : 1 ≤ images.length) :
    ∃ stream log, st.prepare X images
      = { forSlots (DeployTemplate.preProcess X stream)
            (st.afterBind X (images.length : Int)) 0 images with issued := log } := by
  unfold DeployTemplate.prepare
  simp only []
  split
  · exact ⟨Stream.input, _, rfl⟩
  · next hk =>
    cases images with
    | nil => simp at h1
    | cons image rest =>
      cases rest with
      | nil => exact ⟨fun _ => Stream.infer, _, rfl⟩
      | cons b r =>
        exfalso
        apply hk
        simp only [List.length_cons]
        push_cast
        omega

theorem forSlots_fields (X : Externals F TM) (stream : Nat → Stream) (images : List Image)
    (st : DeployTemplate F TM) (start : Nat) :
    (forSlots (DeployTemplate.preProcess X stream) st start images).dynamic = st.dynamic ∧
      (forSlots (DeployTemplate.preProcess X stream) st start images).batch = st.batch := by
  induction images generalizing st start with
  | nil => exact ⟨rfl, rfl⟩
  | cons image rest ih =>
    simp only [forSlots]
    have hp := preProcess_fields X stream st start image
    exact ⟨(ih _ _).1.trans hp.2.2.2.1, (ih _ _).2.trans hp.2.2.2.2⟩

theorem forSlots_frame (X : Externals F TM) (stream : Nat → Stream) (images : List Image)
    (st : DeployTemplate F TM) (start : Nat) :
    (forSlots (DeployTemplate.preProcess X stream) st start images).tensorInfos.map
        TensorInfo.frame = st.tensorInfos.map TensorInfo.frame := by
  induction images generalizing st start with
  | nil => rfl
  | cons image rest ih =>
    simp only [forSlots]
    rw [ih]
    unfold DeployTemplate.preProcess
    split <;>
      (dsimp only; exact mapHead_map (writeInput _ _ _) TensorInfo.frame (fun _ => rfl) _)

theorem boundFor_of_frame (dynamic : Bool) (k : Int) (l l2 : List (TensorInfo F))
    (h : l.map TensorInfo.frame = l2.map TensorInfo.frame)
    (h2 : ∀ t ∈ l2, t.boundFor dynamic k) : ∀ t ∈ l, t.boundFor dynamic k := by
  intro t ht
  have hm : t.frame ∈ l2.map TensorInfo.frame := h ▸ List.mem_map_of_mem TensorInfo.frame ht
  obtain ⟨u, hu, hd⟩ := List.mem_map.mp hm
  have hu2 := h2 u hu
  simp only [TensorInfo.frame, Prod.mk.injEq] at hd
  unfold TensorInfo.boundFor TensorInfo.sizeOk at hu2 ⊢
  rw [← hd.1, ← hd.2.1, ← hd.2.2.1, ← hd.2.2.2]
  exact hu2

theorem tensorStep_boundFor (X : Externals F TM) (hA : X.allocateKeeps) (dynamic : Bool)
    (k : Int) (t : TensorInfo F) : (tensorStep X dynamic k t).boundFor dynamic k := by
  refine ⟨?_, ?_, ?_⟩
  · cases dynamic <;> simp [tensorStep, Dims.setBatch, TensorInfo.update]
  · intro hd
    subst hd
    rfl
  · exact hA.1 _ _

theorem tensorStep_fixed (X : Externals F TM) (hA : X.allocateKeeps) (dynamic : Bool)
    (k : Int) (t : TensorInfo F) (h : t.boundFor dynamic k) : tensorStep X dynamic k t = t := by
  obtain ⟨h1, h2, h3⟩ := h
  cases t with
  | mk name dims input typeSize bytes buffer =>
    simp only [] at h1 h3
    cases dynamic with
    | false =>
      simp only [tensorStep, Bool.false_eq_true, if_false, setBatch_self dims k h1,
        hA.2 buffer bytes h3]
    | true =>
      have hs : bytes = calculateVolume dims * typeSize := h2 rfl
      simp only [tensorStep, if_true, TensorInfo.update, setBatch_self dims k h1, ← hs,
        hA.2 buffer bytes h3]

theorem afterBind_tensorInfos (X : Externals F TM) (st : DeployTemplate F TM) (k : Int) :
    (st.afterBind X k).tensorInfos = st.tensorInfos.map (tensorStep X st.dynamic k) :=
  bindTensors_fst _ _ _ _ _ _

theorem prepare_settled (X : Externals F TM) (hA : X.allocateKeeps) (hU : X.updateStable)
    (st : DeployTemplate F TM) (images : List Image) (h1 : 1 ≤ images.length) :
    (st.prepare X images).settled X images ∧
      (st.prepare X images).dynamic = st.dynamic ∧ (st.prepare X images).batch = st.batch := by
  obtain ⟨stream, log, he⟩ := prepare_eq_forSlots X st images h1
  rw [he]
  have hf := forSlots_fields X stream images (st.afterBind X (images.length : Int)) 0
  refine ⟨⟨?_, ?_⟩, hf.1, hf.2⟩
  · intro j image hj
    exact forSlots_slotDone X hA hU stream images _ 0 j image (Or.inr ⟨j, by omega, hj⟩)
  · apply boundFor_of_frame _ _ _ ((st.afterBind X (images.length : Int)).tensorInfos)
    · exact forSlots_frame X stream images _ 0
    · intro t ht
      rw [afterBind_tensorInfos] at ht
      obtain ⟨u, _, hu⟩ := List.mem_map.mp ht
      rw [← hu]
      show (tensorStep X st.dynamic _ u).boundFor
        (forSlots (DeployTemplate.preProcess X stream) _ 0 images).dynamic _
      rw [hf.1]
      exact tensorStep_boundFor X hA _ _ u

theorem prepare_core_of_settled (X : Externals F TM) (hA : X.allocateKeeps)
    (st : DeployTemplate F TM) (images : List Image) (h1 : 1 ≤ images.length)
    (hs : st.settled X images) :
    (st.prepare X images).core = st.core := by
  obtain ⟨stream, log, he⟩ := prepare_eq_forSlots X st images h1
  rw [he]
  have hts : (st.afterBind X (images.length : Int)).tensorInfos = st.tensorInfos := by
    rw [afterBind_tensorInfos]
    conv_rhs => rw [← List.map_id st.tensorInfos]
    apply List.map_congr_left
    intro t ht
    exact tensorStep_fixed X hA _ _ t (hs.2 t ht)
  have hc : (st.afterBind X (images.length : Int)).core = st.core := by
    simp only [DeployTemplate.core, hts]
    rfl
  show (forSlots (DeployTemplate.preProcess X stream) _ 0 images).core = st.core
  rw [forSlots_core X stream images _ 0 ?_, hc]
  intro j image hj
  apply slotDone_of_core X st _ _ _ hc.symm
  rw [Nat.zero_add]
  exact hs.1 j image hj

theorem engineView_of_eraseOutput (l l2 : List (TensorInfo F))
    (h : l.map TensorInfo.eraseOutput = l2.map TensorInfo.eraseOutput) :
    engineView l = engineView l2 := by
  have key : ∀ l : List (TensorInfo F),
      engineView l = engineView (l.map TensorInfo.eraseOutput) := by
    intro l
    simp only [engineView, List.map_map]
    apply List.map_congr_left
    intro t _
    simp only [Function.comp_apply, TensorInfo.eraseOutput]
    cases hin : t.input <;> simp [hin]
  rw [key l, key l2, h]

theorem engineView_runOutput (X : Externals F TM) (c : ExecContext)
    (ts : List (TensorInfo F)) (j : Nat) (l : List (TensorInfo F)) :
    engineView (mapSlots (runOutput X c ts) j l) = engineView l := by
  unfold engineView
  apply mapSlots_map
  intro j t
  unfold runOutput
  cases hin : t.input <;> simp [hin]

theorem frame_runOutput (X : Externals F TM) (c : ExecContext)
    (ts : List (TensorInfo F)) (j : Nat) (l : List (TensorInfo F)) :
    (mapSlots (runOutput X c ts) j l).map TensorInfo.frame = l.map TensorInfo.frame := by
  apply mapSlots_map
  intro j t
  unfold runOutput
  split <;> rfl

theorem runOutput_absorb (X : Externals F TM) (c c2 : ExecContext)
    (ts ts2 : List (TensorInfo F))
    (hout : ∀ j, X.engineOutput c2 ts2 j = X.engineOutput c ts j) (j : Nat)
    (t t2 : TensorInfo F)
    (h : t2.eraseOutput = (runOutput X c ts j t).eraseOutput) :
    runOutput X c2 ts2 j t2 = runOutput X c ts j t := by
  cases hin : t.input with
  | true =>
    have hr : runOutput X c ts j t = t := by simp [runOutput, hin]
    rw [hr] at h ⊢
    have := eq_of_eraseOutput_eq t2 t h hin
    subst this
    simp [runOutput, hin]
  | false =>
    have hin2 : t2.input = false := by
      rw [← eraseOutput_input t2, h, eraseOutput_input]
      simp [runOutput, hin]
    cases t with
    | mk name dims input typeSize bytes buffer =>
      cases t2 with
      | mk name2 dims2 input2 typeSize2 bytes2 buffer2 =>
        cases buffer with
        | mk cap hp dp host dev =>
          cases buffer2 with
          | mk cap2 hp2 dp2 host2 dev2 =>
            simp only [] at hin hin2
            subst hin hin2
            simp only [runOutput, TensorInfo.eraseOutput, Bool.false_eq_true, if_false,
              TensorInfo.mk.injEq, Buffer.mk.injEq, true_and] at h ⊢
            obtain ⟨hn, hd, hty, hb, hcap, hhp, hdp, hhost, _⟩ := h
            subst hn hd hty hb hcap hhp hdp
            rw [hhost, hout j]
            simp only [memcpy_memcpy, and_self]

theorem mapSlots_runOutput_absorb (X : Externals F TM) (c c2 : ExecContext)
    (ts ts2 : List (TensorInfo F))
    (hout : ∀ j, X.engineOutput c2 ts2 j = X.engineOutput c ts j)
    (l : List (TensorInfo F)) (j : Nat) (l2 : List (TensorInfo F))
    (h : l2.map TensorInfo.eraseOutput
      = (mapSlots (runOutput X c ts) j l).map TensorInfo.eraseOutput) :
    mapSlots (runOutput X c2 ts2) j l2 = mapSlots (runOutput X c ts) j l := by
  induction l generalizing j l2 with
  | nil =>
    simp only [mapSlots, List.map_nil, List.map_eq_nil_iff] at h
    subst h
    rfl
  | cons t r ih =>
    cases l2 with
    | nil => simp [mapSlots] at h
    | cons t2 r2 =>
      simp only [mapSlots, List.map_cons, List.cons.injEq] at h ⊢
      exact ⟨runOutput_absorb X c c2 ts ts2 hout j t t2 h.1, ih _ _ h.2⟩

theorem withOutputs_settled (X : Externals F TM) (p : DeployTemplate F TM)
    (images : List Image) (h : p.settled X images) : (p.withOutputs X).settled X images := by
  obtain ⟨hd, hb⟩ := h
  refine ⟨?_, ?_⟩
  · intro j image hj
    obtain ⟨h1, h2, h3⟩ := hd j image hj
    refine ⟨h1, h2, ?_⟩
    intro t rest hts hin x hx1 hx2
    simp only [DeployTemplate.withOutputs] at hts
    cases hl : p.tensorInfos with
    | nil => rw [hl] at hts; simp [mapSlots] at hts
    | cons t0 r =>
      have hts2 := hts
      rw [hl] at hts2
      simp only [mapSlots, List.cons.injEq] at hts2
      have ht0 : t0.input = true := by
        have : (runOutput X p.engineCtx p.tensorInfos 0 t0).input = t0.input := by
          unfold runOutput
          split <;> rfl
        rw [← this, hl, hts2.1]
        exact hin
      have hr : runOutput X p.engineCtx (t0 :: r) 0 t0 = t0 := by simp [runOutput, ht0]
      have htt : t = t0 := by rw [← hts2.1, hr]
      rw [htt]
      exact h3 t0 r hl ht0 x hx1 hx2
  · exact boundFor_of_frame _ _ _ p.tensorInfos (frame_runOutput X _ _ 0 _) hb

theorem predict_form (X : Externals F TM) (post : BaseTemplate F TM → Nat → R)
    (st : DeployTemplate F TM) (images : List Image)
    (h1 : 1 ≤ images.length) (h2 : (images.length : Int) ≤ st.batch) :
    (st.submitted X images = false ∧
      ∃ log, st.predict X post images
        = ([], { st.prepare X images with issued := log })) ∨
    (st.submitted X images = true ∧
      ∃ log, st.predict X post images
        = ((List.range images.length).map
            (post ((st.prepare X images).withOutputs X).toBaseTemplate),
          { (st.prepare X images).withOutputs X with issued := log })) := by
  have hv : ¬ ((images.length : Int) < 1 ∨ (images.length : Int) > st.batch) := by omega
  cases hs : st.submitted X images with
  | false =>
    left
    refine ⟨rfl, (st.prepare X images).issued ++ [Call.enqueueV3], ?_⟩
    unfold DeployTemplate.submitted at hs
    simp only [DeployTemplate.predict, hv, if_false, hs, Bool.not_false, if_true]
  | true =>
    right
    refine ⟨rfl, (st.prepare X images).issued ++ [Call.enqueueV3]
      ++ outputCalls (st.prepare X images).tensorInfos
      ++ [Call.streamSynchronize Stream.infer]
      ++ (List.range images.length).map Call.postProcess, ?_⟩
    unfold DeployTemplate.submitted at hs
    simp only [DeployTemplate.predict, hv, if_false, hs, Bool.not_true, Bool.false_eq_true,
      decodeLoop_eq, Int.toNat_ofNat]
    rfl

theorem predict_twice (X : Externals F TM) (hE : X.engineDeterministic)
    (hA : X.allocateKeeps) (hU : X.updateStable) (post : BaseTemplate F TM → Nat → R)
    (hpost : ∀ b b2 : BaseTemplate F TM, b.tensorInfos = b2.tensorInfos →
      b.transforms = b2.transforms → post b = post b2)
    (st : DeployTemplate F TM) (images : List Image)
    (h1 : 1 ≤ images.length) (h2 : (images.length : Int) ≤ st.batch) :
    ((st.predict X post images).2.predict X post images).1
      = (st.predict X post images).1 := by
  obtain ⟨hs1, _, hb1⟩ := prepare_settled X hA hU st images h1
  rcases predict_form X post st images h1 h2 with ⟨hsub, log, he⟩ | ⟨hsub, log, he⟩
  · rw [he]
    have hs : ({ st.prepare X images with issued := log } :
        DeployTemplate F TM).settled X images := hs1
    have hbatch : (images.length : Int)
        ≤ ({ st.prepare X images with issued := log } : DeployTemplate F TM).batch := by
      show _ ≤ (st.prepare X images).batch
      rw [hb1]
      exact h2
    have hcore := prepare_core_of_settled X hA _ images h1 hs
    have hview : engineView
          (({ st.prepare X images with issued := log } :
            DeployTemplate F TM).prepare X images).tensorInfos
        = engineView (st.prepare X images).tensorInfos :=
      engineView_of_eraseOutput _ _ (congrArg (fun c => c.2.2.2.2.2) hcore)
    have hsub2 : ({ st.prepare X images with issued := log } :
        DeployTemplate F TM).submitted X images = false := by
      unfold DeployTemplate.submitted at hsub ⊢
      rw [(hE _ (st.prepare X images).engineCtx _ _ hview).1]
      exact hsub
    rcases predict_form X post _ images h1 hbatch with ⟨_, log2, he2⟩ | ⟨ht, _⟩
    · rw [he2]
    · rw [hsub2] at ht
      exact absurd ht (by decide)
  · rw [he]
    have hs : ({ (st.prepare X images).withOutputs X with issued := log } :
        DeployTemplate F TM).settled X images := withOutputs_settled X _ images hs1
    have hbatch : (images.length : Int)
        ≤ ({ (st.prepare X images).withOutputs X with issued := log } :
          DeployTemplate F TM).batch := by
      show _ ≤ (st.prepare X images).batch
      rw [hb1]
      exact h2
    have hcore := prepare_core_of_settled X hA _ images h1 hs
    have herase : (({ (st.prepare X images).withOutputs X with issued := log } :
            DeployTemplate F TM).prepare X images).tensorInfos.map TensorInfo.eraseOutput
        = (mapSlots (runOutput X (st.prepare X images).engineCtx
            (st.prepare X images).tensorInfos) 0 (st.prepare X images).tensorInfos).map
            TensorInfo.eraseOutput :=
      congrArg (fun c => c.2.2.2.2.2) hcore
    have htr : (({ (st.prepare X images).withOutputs X with issued := log } :
            DeployTemplate F TM).prepare X images).transforms
        = (st.prepare X images).transforms :=
      congrArg (fun c => c.2.2.2.1) hcore
    have hview : engineView
          (({ (st.prepare X images).withOutputs X with issued := log } :
            DeployTemplate F TM).prepare X images).tensorInfos
        = engineView (st.prepare X images).tensorInfos := by
      rw [engineView_of_eraseOutput _ _ herase]
      exact engineView_runOutput X _ _ 0 _
    have hdet := hE
      (({ (st.prepare X images).withOutputs X with issued := log } :
        DeployTemplate F TM).prepare X images).engineCtx
      (st.prepare X images).engineCtx _ _ hview
    have hsub2 : ({ (st.prepare X images).withOutputs X with issued := log } :
        DeployTemplate F TM).submitted X images = true := by
      unfold DeployTemplate.submitted at hsub ⊢
      rw [hdet.1]
      exact hsub
    rcases predict_form X post _ images h1 hbatch with ⟨hf, _⟩ | ⟨_, log2, he2⟩
    · rw [hsub2] at hf
      exact absurd hf (by decide)
    · rw [he2]
      apply List.map_congr_left
      intro i _
      apply congrFun
      apply hpost
      · exact mapSlots_runOutput_absorb X _ _ _ _ hdet.2 _ 0 _ herase
      · exact htr

theorem postProcessDet_congr (X : Externals F TM) (b b2 : BaseTemplate F TM)
    (hts : b.tensorInfos = b2.tensorInfos) (hT : b.transforms = b2.transforms) :
    postProcessDet X b = postProcessDet X b2 := by
  cases b
  cases b2
  simp only [] at hts hT
  subst hts hT
  rfl

theorem postProcessOBB_congr (X : Externals F TM) (b b2 : BaseTemplate F TM)
    (hts : b.tensorInfos = b2.tensorInfos) (hT : b.transforms = b2.transforms) :
    postProcessOBB X b = postProcessOBB X b2 := by
  cases b
  cases b2
  simp only [] at hts hT
  subst hts hT
  rfl

theorem postProcessSeg_congr (X : Externals F TM) (b b2 : BaseTemplate F TM)
    (hts : b.tensorInfos = b2.tensorInfos) (hT : b.transforms = b2.transforms) :
    postProcessSeg X b = postProcessSeg X b2 := by
  cases b
  cases b2
  simp only [] at hts hT
  subst hts hT
  rfl

theorem postProcessPose_congr (X : Externals F TM) (b b2 : BaseTemplate F TM)
    (hts : b.tensorInfos = b2.tensorInfos) (hT : b.transforms = b2.transforms) :
    postProcessPose X b = postProcessPose X b2 := by
  cases b
  cases b2
  simp only [] at hts hT
  subst hts hT
  rfl

theorem postProcessCls_congr (X : Externals F TM) (b b2 : BaseTemplate F TM)
    (hts : b.tensorInfos = b2.tensorInfos) (hT : b.transforms = b2.transforms) :
    postProcessCls X b = postProcessCls X b2 := by
  cases b
  cases b2
  simp only [] at hts hT
  subst hts hT
  rfl

theorem sampleExternals_engineDeterministic (ok : Bool) :
    (sampleExternals ok).engineDeterministic :=
  fun _ _ _ _ _ => ⟨rfl, fun _ => rfl⟩

theorem sampleExternals_allocateKeeps (ok : Bool) : (sampleExternals ok).allocateKeeps := by
  constructor
  · intro b n
    simp only [sampleExternals]
    split
    · exact le_refl n
    · omega
  · intro b n h
    simp only [sampleExternals]
    split
    · omega
    · rfl

theorem sampleExternals_updateStable (ok : Bool) : (sampleExternals ok).updateStable :=
  fun _ _ _ _ _ => rfl

/-- C11. Idempotence of batch `predict` on the direct engine: for every state, every
sequence of `k` images with `1 ≤ k ≤ batch` and each of the five decoders, a second call
with the same images returns the results of the first call, although the first call has
changed batch extents, byte sizes, buffers and transforms.  The compute engine is a
deterministic function of the bound input buffers and the shapes; the memory manager keeps a
buffer that is large enough and the transform update is stable, as the spec describes
them. -/
theorem predict_idempotent (X : Externals F TM) (hE : X.engineDeterministic)
    (hA : X.allocateKeeps) (hU : X.updateStable) (st : DeployTemplate F TM)
    (images : List Image) (h1 : 1 ≤ images.length) (h2 : (images.length : Int) ≤ st.batch) :
    ((st.predict X (postProcessDet X) images).2.predict X (postProcessDet X) images).1
        = (st.predict X (postProcessDet X) images).1 ∧
      ((st.predict X (postProcessOBB X) images).2.predict X (postProcessOBB X) images).1
        = (st.predict X (postProcessOBB X) images).1 ∧
      ((st.predict X (postProcessSeg X) images).2.predict X (postProcessSeg X) images).1
        = (st.predict X (postProcessSeg X) images).1 ∧
      ((st.predict X (postProcessPose X) images).2.predict X (postProcessPose X) images).1
        = (st.predict X (postProcessPose X) images).1 ∧
      ((st.predict X (postProcessCls X) images).2.predict X (postProcessCls X) images).1
        = (st.predict X (postProcessCls X) images).1 :=
  ⟨predict_twice X hE hA hU _ (postProcessDet_congr X) st images h1 h2,
    predict_twice X hE hA hU _ (postProcessOBB_congr X) st images h1 h2,
    predict_twice X hE hA hU _ (postProcessSeg_congr X) st images h1 h2,
    predict_twice X hE hA hU _ (postProcessPose_congr X) st images h1 h2,
    predict_twice X hE hA hU _ (postProcessCls_congr X) st images h1 h2⟩

theorem predict_idempotent_witness :
    (((sampleDeploy true false).predict (sampleExternals true)
          (postProcessDet (sampleExternals true)) [sampleImage, sampleImage]).2.predict
        (sampleExternals true) (postProcessDet (sampleExternals true))
        [sampleImage, sampleImage]).1
      = ((sampleDeploy true false).predict (sampleExternals true)
          (postProcessDet (sampleExternals true)) [sampleImage, sampleImage]).1 :=
  (predict_idempotent (sampleExternals true) (sampleExternals_engineDeterministic true)
    (sampleExternals_allocateKeeps true) (sampleExternals_updateStable true)
    (sampleDeploy true false) [sampleImage, sampleImage] (by decide) (by decide)).1

end Idempotence

/-! ## Entries of the detection and oriented-box decoders -/

section EntryClaims

variable {F TM : Type}

/-- C12. Detection and oriented-box decoders, entry by entry: for a slot `idx` and `i` below
the count, with `d1`, `d2` the second and third extents of the box tensor, box `i` is built
from the floats `b0 .. b3` at offset `idx * d1 * d2 + i * d2` of the box region: `(b0, b1)`
and `(b2, b3)` are mapped through the transform of slot `idx` to `(left, top)` and
`(right, bottom)`, and the oriented box carries `b4` unchanged as its angle; score `i` and
class id `i` are the elements at offset `idx * d1 + i` of the score and class regions, `d1`
being the second extent of that tensor. -/
theorem det_obb_entries (X : Externals F TM) (b : BaseTemplate F TM) (idx i : Nat)
    (hi : (i : Int) < b.count X idx) :
    (postProcessDet X b idx).boxes[i]?
        = some
          { left := (X.tmTransform (b.transforms.get idx)
              ((b.tensorInfo X 2).buffer.host.asFloat
                ((idx : Int) * (b.tensorInfo X 2).dims.d 1 * (b.tensorInfo X 2).dims.d 2
                  + (i * (b.tensorInfo X 2).dims.d 2)))
              ((b.tensorInfo X 2).buffer.host.asFloat
                ((idx : Int) * (b.tensorInfo X 2).dims.d 1 * (b.tensorInfo X 2).dims.d 2
                  + (i * (b.tensorInfo X 2).dims.d 2 + 1)))).1
            top := (X.tmTransform (b.transforms.get idx)
              ((b.tensorInfo X 2).buffer.host.asFloat
                ((idx : Int) * (b.tensorInfo X 2).dims.d 1 * (b.tensorInfo X 2).dims.d 2
                  + (i * (b.tensorInfo X 2).dims.d 2)))
              ((b.tensorInfo X 2).buffer.host.asFloat
                ((idx : Int) * (b.tensorInfo X 2).dims.d 1 * (b.tensorInfo X 2).dims.d 2
                  + (i * (b.tensorInfo X 2).dims.d 2 + 1)))).2
            right := (X.tmTransform (b.transforms.get idx)
              ((b.tensorInfo X 2).buffer.host.asFloat
                ((idx : Int) * (b.tensorInfo X 2).dims.d 1 * (b.tensorInfo X 2).dims.d 2
                  + (i * (b.tensorInfo X 2).dims.d 2 + 2)))
              ((b.tensorInfo X 2).buffer.host.asFloat
                ((idx : Int) * (b.tensorInfo X 2).dims.d 1 * (b.tensorInfo X 2).dims.d 2
                  + (i * (b.tensorInfo X 2).dims.d 2 + 3)))).1
            bottom := (X.tmTransform (b.transforms.get idx)
              ((b.tensorInfo X 2).buffer.host.asFloat
                ((idx : Int) * (b.tensorInfo X 2).dims.d 1 * (b.tensorInfo X 2).dims.d 2
                  + (i * (b.tensorInfo X 2).dims.d 2 + 2)))
              ((b.tensorInfo X 2).buffer.host.asFloat
                ((idx : Int) * (b.tensorInfo X 2).dims.d 1 * (b.tensorInfo X 2).dims.d 2
                  + (i * (b.tensorInfo X 2).dims.d 2 + 3)))).2 } ∧
      (postProcessOBB X b idx).boxes[i]?
        = some
          { left := (X.tmTransform (b.transforms.get idx)
              ((b.tensorInfo X 2).buffer.host.asFloat
                ((idx : Int) * (b.tensorInfo X 2).dims.d 1 * (b.tensorInfo X 2).dims.d 2
                  + (i * (b.tensorInfo X 2).dims.d 2)))
              ((b.tensorInfo X 2).buffer.host.asFloat
                ((idx : Int) * (b.tensorInfo X 2).dims.d 1 * (b.tensorInfo X 2).dims.d 2
                  + (i * (b.tensorInfo X 2).dims.d 2 + 1)))).1
            top := (X.tmTransform (b.transforms.get idx)
              ((b.tensorInfo X 2).buffer.host.asFloat
                ((idx : Int) * (b.tensorInfo X 2).dims.d 1 * (b.tensorInfo X 2).dims.d 2
                  + (i * (b.tensorInfo X 2).dims.d 2)))
              ((b.tensorInfo X 2).buffer.host.asFloat
                ((idx : Int) * (b.tensorInfo X 2).dims.d 1 * (b.tensorInfo X 2).dims.d 2
                  + (i * (b.tensorInfo X 2).dims.d 2 + 1)))).2
            right := (X.tmTransform (b.transforms.get idx)
              ((b.tensorInfo X 2).buffer.host.asFloat
                ((idx : Int) * (b.tensorInfo X 2).dims.d 1 * (b.tensorInfo X 2).dims.d 2
                  + (i * (b.tensorInfo X 2).dims.d 2 + 2)))
              ((b.tensorInfo X 2).buffer.host.asFloat
                ((idx : Int) * (b.tensorInfo X 2).dims.d 1 * (b.tensorInfo X 2).dims.d 2
                  + (i * (b.tensorInfo X 2).dims.d 2 + 3)))).1
            bottom := (X.tmTransform (b.transforms.get idx)
              ((b.tensorInfo X 2).buffer.host.asFloat
                ((idx : Int) * (b.tensorInfo X 2).dims.d 1 * (b.tensorInfo X 2).dims.d 2
                  + (i * (b.tensorInfo X 2).dims.d 2 + 2)))
              ((b.tensorInfo X 2).buffer.host.asFloat
                ((idx : Int) * (b.tensorInfo X 2).dims.d 1 * (b.tensorInfo X 2).dims.d 2
                  + (i * (b.tensorInfo X 2).dims.d 2 + 3)))).2
            theta := (b.tensorInfo X 2).buffer.host.asFloat
              ((idx : Int) * (b.tensorInfo X 2).dims.d 1 * (b.tensorInfo X 2).dims.d 2
                + (i * (b.tensorInfo X 2).dims.d 2 + 4)) } ∧
      (postProcessDet X b idx).scores[i]?
        = some ((b.tensorInfo X 3).buffer.host.asFloat
            ((idx : Int) * (b.tensorInfo X 3).dims.d 1 + i)) ∧
      (postProcessDet X b idx).classes[i]?
        = some ((b.tensorInfo X 4).buffer.host.asInt
            ((idx : Int) * (b.tensorInfo X 4).dims.d 1 + i)) ∧
      (postProcessOBB X b idx).scores[i]?
        = some ((b.tensorInfo X 3).buffer.host.asFloat
            ((idx : Int) * (b.tensorInfo X 3).dims.d 1 + i)) ∧
      (postProcessOBB X b idx).classes[i]?
        = some ((b.tensorInfo X 4).buffer.host.asInt
            ((idx : Int) * (b.tensorInfo X 4).dims.d 1 + i)) := by
  have hn : i < (b.count X idx).toNat := by omega
  refine ⟨?_, ?_, ?_, ?_, ?_, ?_⟩ <;>
    simp only [postProcessDet, postProcessOBB, detStep_foldl, obbStep_foldl, List.nil_append,
      List.getElem?_map, List.getElem?_range hn, Option.map_some', BaseTemplate.boxAt,
      BaseTemplate.rotatedBoxAt, BaseTemplate.boxes, BaseTemplate.scores,
      BaseTemplate.classes]

theorem det_obb_entries_witness :
    (postProcessDet (sampleExternals true) (sampleBase [1, 1] [1, 1, 4, 4] 0 1) 0).boxes[1]?
        = some { left := 5, top := 5, right := 7, bottom := 7 } ∧
      (postProcessOBB (sampleExternals true) (sampleBase [1, 1] [1, 1, 4, 4] 0 1) 0).boxes[1]?
        = some { left := 5, top := 5, right := 7, bottom := 7, theta := 9 } ∧
      (postProcessDet (sampleExternals true) (sampleBase [1, 1] [1, 1, 4, 4] 0 1) 0).scores[1]?
        = some 1 :=
  ⟨(det_obb_entries (sampleExternals true) (sampleBase [1, 1] [1, 1, 4, 4] 0 1) 0 1
      (by decide)).1,
    (det_obb_entries (sampleExternals true) (sampleBase [1, 1] [1, 1, 4, 4] 0 1) 0 1
      (by decide)).2.1,
    (det_obb_entries (sampleExternals true) (sampleBase [1, 1] [1, 1, 4, 4] 0 1) 0 1
      (by decide)).2.2.1⟩

end EntryClaims

/-! ## The per-slot tables of the graph-replay engine -/

section TableClaims

variable {F TM : Type}

theorem allocateStep_foldl_sizes (X : Externals F TM) (l : List Nat)
    (st : DeployCGTemplate F TM) :
    (l.foldl (DeployCGTemplate.allocateStep X) st).transforms.size = st.transforms.size ∧
      (l.foldl (DeployCGTemplate.allocateStep X) st).imageSize.size = st.imageSize.size ∧
      (l.foldl (DeployCGTemplate.allocateStep X) st).batch = st.batch := by
  induction l generalizing st with
  | nil => exact ⟨rfl, rfl, rfl⟩
  | cons i l ih =>
    rw [List.foldl_cons]
    exact ⟨(ih _).1.trans rfl, (ih _).2.1.trans rfl, (ih _).2.2.trans rfl⟩

/-- C13, what the code does: `DeployCGTemplate<T>::allocate` leaves the sizes of the
transform table and of the image-size table as they were (it calls `reserve`), so that on
the worked model of batch 2 both tables have length 0 after allocation, where the direct
engine, which calls `resize`, has a transform table of length 2. -/
theorem replay_allocate_keeps_table_sizes (X : Externals F TM) (st : DeployCGTemplate F TM) :
    ((st.allocate X).transforms.size = st.transforms.size ∧
        (st.allocate X).imageSize.size = st.imageSize.size) ∧
      (DeployCGTemplate.allocated (sampleExternals true) false (sampleSpecs false)).map
          (fun r => (r.batch, r.transforms.size, r.imageSize.size)) = some (2, 0, 0) ∧
      ((sampleDeploy true false).batch, (sampleDeploy true false).transforms.size) = (2, 2) := by
  refine ⟨?_, by decide, by decide⟩
  unfold DeployCGTemplate.allocate
  exact ⟨(allocateStep_foldl_sizes X _ _).1, (allocateStep_foldl_sizes X _ _).2.1⟩

end TableClaims

/-! ## Host-resident images on the graph-replay engine -/

section PackClaims

variable {F TM R : Type}

theorem packedOffset_zero (images : List Image) : packedOffset images 0 = 0 := by
  simp [packedOffset]

theorem packedOffset_cons_succ (a : Image) (rest : List Image) (j : Nat) :
    packedOffset (a :: rest) (j + 1) = a.bytes + packedOffset rest j := by
  simp [packedOffset]

theorem packedOffset_length (images : List Image) :
    packedOffset images images.length = (images.map Image.bytes).sum := by
  simp [packedOffset]

theorem packedOffset_nonneg (images : List Image) (h : ∀ img ∈ images, 0 ≤ img.bytes)
    (j : Nat) : 0 ≤ packedOffset images j := by
  unfold packedOffset
  apply List.sum_nonneg
  intro x hx
  obtain ⟨img, himg, rfl⟩ := List.mem_map.mp hx
  exact h img (List.mem_of_mem_take himg)

theorem packedOffset_add_le (images : List Image) (h : ∀ img ∈ images, 0 ≤ img.bytes)
    (j : Nat) (img : Image) (hj : images[j]? = some img) :
    packedOffset images j + img.bytes ≤ (images.map Image.bytes).sum := by
  induction images generalizing j with
  | nil => simp at hj
  | cons a rest ih =>
    cases j with
    | zero =>
      simp only [List.getElem?_cons_zero, Option.some.injEq] at hj
      subst hj
      simp only [packedOffset_zero, List.map_cons, List.sum_cons, zero_add]
      have : 0 ≤ (rest.map Image.bytes).sum := by
        apply List.sum_nonneg
        intro x hx
        obtain ⟨img, himg, rfl⟩ := List.mem_map.mp hx
        exact h img (List.mem_cons_of_mem _ himg)
      omega
    | succ j =>
      simp only [List.getElem?_cons_succ] at hj
      have := ih (fun img himg => h img (List.mem_cons_of_mem _ himg)) j hj
      simp only [packedOffset_cons_succ, List.map_cons, List.sum_cons]
      omega

theorem toInt32_of_range (x : Int) (h0 : 0 ≤ x) (h1 : x < 2147483648) : toInt32 x = x := by
  unfold toInt32
  omega

theorem toSizeT_of_range (x : Int) (h0 : 0 ≤ x) (h1 : x < 2147483648) : toSizeT x = x := by
  unfold toSizeT
  omega

theorem bytes_sum_nonneg (images : List Image) (h : ∀ img ∈ images, 0 ≤ img.bytes) :
    0 ≤ (images.map Image.bytes).sum := by
  apply List.sum_nonneg
  intro x hx
  obtain ⟨img, himg, rfl⟩ := List.mem_map.mp hx
  exact h img himg

theorem bytes_le_sum (images : List Image) (h : ∀ img ∈ images, 0 ≤ img.bytes)
    (img : Image) (himg : img ∈ images) : img.bytes ≤ (images.map Image.bytes).sum := by
  induction images with
  | nil => simp at himg
  | cons a rest ih =>
    simp only [List.map_cons, List.sum_cons]
    have hr := bytes_sum_nonneg rest (fun i hi => h i (List.mem_cons_of_mem _ hi))
    have ha := h a (List.mem_cons_self _ _)
    rcases List.mem_cons.mp himg with e | e
    · subst e
      omega
    · have := ih (fun i hi => h i (List.mem_cons_of_mem _ hi)) e
      omega

theorem forSlots_measure (X : Externals F TM) (images : List Image)
    (st : DeployCGTemplate F TM) (acc : Int) (start : Nat)
    (hnn : ∀ img ∈ images, 0 ≤ img.bytes) (hacc : 0 ≤ acc)
    (hr : acc + (images.map Image.bytes).sum < 2147483648) :
    (forSlots (DeployCGTemplate.measure X) (st, acc) start images).2
        = acc + (images.map Image.bytes).sum ∧
      (∀ i, i < start →
        (forSlots (DeployCGTemplate.measure X) (st, acc) start images).1.imageSize.get i
          = st.imageSize.get i) ∧
      (∀ j img, images[j]? = some img →
        (forSlots (DeployCGTemplate.measure X) (st, acc) start images).1.imageSize.get
          (start + j) = img.bytes) ∧
      (forSlots (DeployCGTemplate.measure X) (st, acc) start images).1.fixed = st.fixed ∧
      (forSlots (DeployCGTemplate.measure X) (st, acc) start images).1.imageBuffer
        = st.imageBuffer ∧
      (forSlots (DeployCGTemplate.measure X) (st, acc) start images).1.graph = st.graph := by
  induction images generalizing st acc start with
  | nil => simp [forSlots]
  | cons a rest ih =>
    simp only [forSlots]
    have ha : 0 ≤ a.bytes := hnn a (List.mem_cons_self _ _)
    have hrest := bytes_sum_nonneg rest (fun i hi => hnn i (List.mem_cons_of_mem _ hi))
    simp only [List.map_cons, List.sum_cons] at hr
    have hwrap : toInt32 (a.width * a.height * 3) = a.bytes :=
      toInt32_of_range _ ha (by unfold Image.bytes at *; omega)
    have hstep : (DeployCGTemplate.measure X (st, acc) start a).2 = acc + a.bytes := by
      simp only [DeployCGTemplate.measure, DeployCGTemplate.updateTransform,
        Vec.get_set_self, hwrap]
      exact toInt32_of_range _ (by omega) (by omega)
    obtain ⟨ih1, ih2, ih3, ih4, ih5, ih6⟩ := ih
      (DeployCGTemplate.measure X (st, acc) start a).1
      (DeployCGTemplate.measure X (st, acc) start a).2 (start + 1)
      (fun i hi => hnn i (List.mem_cons_of_mem _ hi)) (by rw [hstep]; omega)
      (by rw [hstep]; omega)
    have hget : ∀ i, i ≠ start →
        (DeployCGTemplate.measure X (st, acc) start a).1.imageSize.get i
          = st.imageSize.get i := by
      intro i hi
      simp only [DeployCGTemplate.measure, DeployCGTemplate.updateTransform]
      exact Vec.get_set_ne _ _ _ _ hi
    have hself : (DeployCGTemplate.measure X (st, acc) start a).1.imageSize.get start
        = a.bytes := by
      simp only [DeployCGTemplate.measure, DeployCGTemplate.updateTransform,
        Vec.get_set_self, hwrap]
    refine ⟨?_, ?_, ?_, ih4.trans rfl, ih5.trans rfl, ih6.trans rfl⟩
    · refine ih1.trans ?_
      rw [hstep]
      simp only [List.map_cons, List.sum_cons]
      ring
    · intro i hi
      exact (ih2 i (by omega)).trans (hget i (by omega))
    · intro j img hj
      cases j with
      | zero =>
        simp only [List.getElem?_cons_zero, Option.some.injEq] at hj
        subst hj
        exact (ih2 start (by omega)).trans hself
      | succ j =>
        simp only [List.getElem?_cons_succ] at hj
        have := ih3 j img hj
        rw [show start + 1 + j = start + (j + 1) by omega] at this
        exact this

theorem forSlots_pack (images : List Image) (st : DeployCGTemplate F TM) (off : Int)
    (start : Nat)
    (hsz : ∀ j img, images[j]? = some img → st.imageSize.get (start + j) = img.bytes)
    (hnn : ∀ img ∈ images, 0 ≤ img.bytes)
    (hlt : ∀ img ∈ images, img.bytes < 2147483648) :
    (∀ k, k < off →
        (forSlots DeployCGTemplate.pack (st, off) start images).1.imageBuffer.host.asByte k
          = st.imageBuffer.host.asByte k) ∧
      (∀ j img, images[j]? = some img → ∀ x, 0 ≤ x → x < img.bytes →
        (forSlots DeployCGTemplate.pack (st, off) start images).1.imageBuffer.host.asByte
            (off + packedOffset images j + x) = img.rgb x) ∧
      (forSlots DeployCGTemplate.pack (st, off) start images).1.fixed = st.fixed ∧
      (forSlots DeployCGTemplate.pack (st, off) start images).1.imageSize = st.imageSize ∧
      (forSlots DeployCGTemplate.pack (st, off) start images).1.graph = st.graph ∧
      (forSlots DeployCGTemplate.pack (st, off) start images).1.imageBuffer.hostPtr
        = st.imageBuffer.hostPtr ∧
      (forSlots DeployCGTemplate.pack (st, off) start images).1.imageBuffer.devicePtr
        = st.imageBuffer.devicePtr ∧
      (forSlots DeployCGTemplate.pack (st, off) start images).1.imageBuffer.device
        = st.imageBuffer.device := by
  induction images generalizing st off start with
  | nil =>
    refine ⟨fun _ _ => rfl, ?_, rfl, rfl, rfl, rfl, rfl, rfl⟩
    intro j img hj
    simp at hj
  | cons a rest ih =>
    simp only [forSlots]
    have hsz0 : st.imageSize.get start = a.bytes := hsz 0 a (by simp)
    have ha : 0 ≤ a.bytes := hnn a (List.mem_cons_self _ _)
    have hoff : (DeployCGTemplate.pack (st, off) start a).2 = off + a.bytes := by
      simp only [DeployCGTemplate.pack, hsz0]
    have hhost : ∀ k, (DeployCGTemplate.pack (st, off) start a).1.imageBuffer.host.asByte k
        = if off ≤ k ∧ k < off + a.bytes then a.rgb (k - off)
          else st.imageBuffer.host.asByte k := by
      intro k
      simp only [DeployCGTemplate.pack, hsz0,
        toSizeT_of_range a.bytes ha (hlt a (List.mem_cons_self _ _))]
    obtain ⟨ih1, ih2, ih3, ih4, ih5, ih6, ih7, ih8⟩ := ih
      (DeployCGTemplate.pack (st, off) start a).1
      (DeployCGTemplate.pack (st, off) start a).2 (start + 1)
      (fun j img hj => by
        have := hsz (j + 1) img (by simpa using hj)
        rw [show start + (j + 1) = start + 1 + j by omega] at this
        exact this)
      (fun img himg => hnn img (List.mem_cons_of_mem _ himg))
      (fun img himg => hlt img (List.mem_cons_of_mem _ himg))
    refine ⟨?_, ?_, ih3.trans rfl, ih4.trans rfl, ih5.trans rfl, ih6.trans rfl,
      ih7.trans rfl, ih8.trans rfl⟩
    · intro k hk
      refine (ih1 k (by rw [hoff]; omega)).trans ?_
      rw [hhost k, if_neg (by omega)]
    · intro j img hj x hx0 hx1
      cases j with
      | zero =>
        simp only [List.getElem?_cons_zero, Option.some.injEq] at hj
        subst hj
        rw [packedOffset_zero, add_zero]
        refine (ih1 (off + x) (by rw [hoff]; omega)).trans ?_
        rw [hhost (off + x), if_pos ⟨by omega, by omega⟩, add_sub_cancel_left]
      | succ j =>
        simp only [List.getElem?_cons_succ] at hj
        have := ih2 j img hj x hx0 hx1
        rw [packedOffset_cons_succ, ← add_assoc, ← hoff]
        exact this

theorem forSlots_patchHost (X : Externals F TM) (images : List Image)
    (st : DeployCGTemplate F TM) (off : Int) (start : Nat)
    (hsz : ∀ j img, images[j]? = some img → st.imageSize.get (start + j) = img.bytes) :
    (∀ m, m ≤ start →
        (forSlots (DeployCGTemplate.patchHost X) (st, off) start images).1.graph.nodes m
          = st.graph.nodes m) ∧
      (∀ j img, images[j]? = some img → ∃ p,
        (forSlots (DeployCGTemplate.patchHost X) (st, off) start images).1.graph.nodes
            (start + j + 1) = NodeParams.kernel p ∧
          p.src = st.imageBuffer.devicePtr.add (off + packedOffset images j) ∧
          p.srcWidth = img.width ∧ p.srcHeight = img.height ∧
          p.dst = (st.toBaseTemplate.tensorInfo X 0).buffer.devicePtr.add
            (((start + j : Nat) : Int) * st.inputSize) ∧
          p.dstWidth = st.width ∧ p.dstHeight = st.height) ∧
      (forSlots (DeployCGTemplate.patchHost X) (st, off) start images).1.fixed = st.fixed ∧
      (forSlots (DeployCGTemplate.patchHost X) (st, off) start images).1.imageSize
        = st.imageSize ∧
      (forSlots (DeployCGTemplate.patchHost X) (st, off) start images).1.imageBuffer
        = st.imageBuffer ∧
      (forSlots (DeployCGTemplate.patchHost X) (st, off) start images).1.graph.launches
        = st.graph.launches := by
  induction images generalizing st off start with
  | nil =>
    refine ⟨fun _ _ => rfl, ?_, rfl, rfl, rfl, rfl⟩
    intro j img hj
    simp at hj
  | cons a rest ih =>
    simp only [forSlots]
    have hsz0 : st.imageSize.get start = a.bytes := hsz 0 a (by simp)
    have hoff : (DeployCGTemplate.patchHost X (st, off) start a).2 = off + a.bytes := by
      simp only [DeployCGTemplate.patchHost, DeployCGTemplate.updateTransform, hsz0]
    have hnode : ∀ m, m ≠ start + 1 →
        (DeployCGTemplate.patchHost X (st, off) start a).1.graph.nodes m
          = st.graph.nodes m := by
      intro m hm
      simp only [DeployCGTemplate.patchHost, DeployCGTemplate.updateTransform,
        Graph.updateKernelNodeParams, hm, if_false]
    have hself : (DeployCGTemplate.patchHost X (st, off) start a).1.graph.nodes (start + 1)
        = NodeParams.kernel
            ((st.updateTransform X start a).kernelParams X start
              (st.imageBuffer.devicePtr.add off) a) := by
      simp only [DeployCGTemplate.patchHost, Graph.updateKernelNodeParams, if_true]
      rfl
    obtain ⟨ih1, ih2, ih3, ih4, ih5, ih6⟩ := ih
      (DeployCGTemplate.patchHost X (st, off) start a).1
      (DeployCGTemplate.patchHost X (st, off) start a).2 (start + 1)
      (fun j img hj => by
        have := hsz (j + 1) img (by simpa using hj)
        rw [show start + (j + 1) = start + 1 + j by omega] at this
        exact this)
    refine ⟨?_, ?_, ih3.trans rfl, ih4.trans rfl, ih5.trans rfl, ih6.trans rfl⟩
    · intro m hm
      exact (ih1 m (by omega)).trans (hnode m (by omega))
    · intro j img hj
      cases j with
      | zero =>
        simp only [List.getElem?_cons_zero, Option.some.injEq] at hj
        subst hj
        refine ⟨_, (ih1 (start + 1) (le_refl _)).trans hself, ?_, rfl, rfl, rfl, rfl, rfl⟩
        rw [packedOffset_zero, add_zero]
        rfl
      | succ j =>
        simp only [List.getElem?_cons_succ] at hj
        obtain ⟨p, hp, hsrc, hw, hh, hdst, hdw, hdh⟩ := ih2 j img hj
        refine ⟨p, ?_, ?_, hw, hh, ?_, hdw, hdh⟩
        · rw [show start + (j + 1) + 1 = start + 1 + j + 1 by omega]
          exact hp
        · rw [hsrc, hoff, packedOffset_cons_succ, ← add_assoc]
          rfl
        · rw [hdst, show start + (j + 1) = start + 1 + j by omega]
          rfl

theorem patch_eq_patchHost (X : Externals F TM) (st : DeployCGTemplate F TM)
    (images : List Image) (hc : st.cudaMem = false) :
    st.patch X images
      = (forSlots (DeployCGTemplate.patchHost X) (st.copyPatched X images, 0) 0 images).1 := by
  unfold DeployCGTemplate.patch
  simp only [hc, Bool.false_eq_true, if_false]
  rfl

theorem packed_props (X : Externals F TM) (st : DeployCGTemplate F TM)
    (images : List Image) (hnn : ∀ img ∈ images, 0 ≤ img.bytes)
    (hr : packedOffset images images.length < 2147483648) :
    (∀ j img, images[j]? = some img → ∀ x, 0 ≤ x → x < img.bytes →
        (st.packed X images).imageBuffer.host.asByte (packedOffset images j + x)
          = img.rgb x) ∧
      (st.packed X images).fixed = st.fixed ∧
      (∀ j img, images[j]? = some img → (st.packed X images).imageSize.get j = img.bytes) ∧
      (st.packed X images).graph = st.graph ∧
      (forSlots (DeployCGTemplate.measure X) (st, 0) 0 images).2
        = packedOffset images images.length := by
  rw [packedOffset_length] at hr
  obtain ⟨hM1, _, hM3, hM4, _, hM6⟩ :=
    forSlots_measure X images st 0 0 hnn (le_refl 0) (by omega)
  have hlt : ∀ img ∈ images, img.bytes < 2147483648 := by
    intro img himg
    have := bytes_le_sum images hnn img himg
    omega
  have hsz : ∀ j img, images[j]? = some img →
      ({ (forSlots (DeployCGTemplate.measure X) (st, 0) 0 images).1 with
          imageBuffer := X.allocate
            (forSlots (DeployCGTemplate.measure X) (st, 0) 0 images).1.imageBuffer
            (toSizeT (forSlots (DeployCGTemplate.measure X) (st, 0) 0 images).2)
          issued := (forSlots (DeployCGTemplate.measure X) (st, 0) 0 images).1.issued
            ++ [Call.pinnedAllocate
              (toSizeT (forSlots (DeployCGTemplate.measure X) (st, 0) 0 images).2)] } :
        DeployCGTemplate F TM).imageSize.get (0 + j) = img.bytes := hM3
  obtain ⟨_, hP2, hP3, hP4, hP5, _, _, _⟩ := forSlots_pack images _ 0 0 hsz hnn hlt
  refine ⟨?_, hP3.trans hM4, ?_, hP5.trans hM6, ?_⟩
  · intro j img hj x hx0 hx1
    have := hP2 j img hj x hx0 hx1
    rw [zero_add] at this
    exact this
  · intro j img hj
    have h := hM3 j img hj
    rw [Nat.zero_add] at h
    have e : (st.packed X images).imageSize
        = (forSlots (DeployCGTemplate.measure X) (st, 0) 0 images).1.imageSize := hP4
    rw [e]
    exact h
  · rw [hM1, packedOffset_length, zero_add]

theorem packedOffset_succ (images : List Image) (i : Nat) (img : Image)
    (h : images[i]? = some img) :
    packedOffset images (i + 1) = packedOffset images i + img.bytes := by
  induction images generalizing i with
  | nil => simp at h
  | cons a rest ih =>
    cases i with
    | zero =>
      simp only [List.getElem?_cons_zero, Option.some.injEq] at h
      subst h
      simp [packedOffset]
    | succ i =>
      simp only [List.getElem?_cons_succ] at h
      rw [packedOffset_cons_succ, packedOffset_cons_succ, ih i h]
      ring

theorem launch_props (X : Externals F TM) (q : DeployCGTemplate F TM) (images : List Image)
    (p : MemcpyParams) (hq : q.graph.nodes 0 = NodeParams.memcpy p) :
    (q.launch X images).imageBuffer
        = { q.imageBuffer with
            device := q.imageBuffer.device.memcpy q.imageBuffer.host p.bytes } ∧
      (q.launch X images).graph.nodes = q.graph.nodes := by
  refine ⟨?_, ?_⟩ <;> simp only [DeployCGTemplate.launch, hq]

theorem replay_predict_state (X : Externals F TM) (post : BaseTemplate F TM → Nat → R)
    (st : DeployCGTemplate F TM) (images : List Image)
    (hlen : (images.length : Int) = st.batch) :
    (st.predict X post images).2.imageBuffer
        = ((st.patch X images).launch X images).imageBuffer ∧
      (st.predict X post images).2.graph = ((st.patch X images).launch X images).graph := by
  have hne : ¬ ((images.length : Int) ≠ st.batch) := by simp [hlen]
  refine ⟨?_, ?_⟩ <;> simp only [DeployCGTemplate.predict, hne, if_false]

theorem patch_props (X : Externals F TM) (st : DeployCGTemplate F TM) (images : List Image)
    (hc : st.cudaMem = false) (hnn : ∀ img ∈ images, 0 ≤ img.bytes)
    (hr : packedOffset images images.length < 2147483648) :
    (st.patch X images).imageBuffer = (st.packed X images).imageBuffer ∧
      (st.patch X images).graph.nodes 0
        = NodeParams.memcpy
            { host := (st.packed X images).imageBuffer.hostPtr
              device := (st.packed X images).imageBuffer.devicePtr
              bytes := packedOffset images images.length } ∧
      (∀ i img, images[i]? = some img → ∃ p,
        (st.patch X images).graph.nodes (i + 1) = NodeParams.kernel p ∧
          p.src = (st.packed X images).imageBuffer.devicePtr.add (packedOffset images i) ∧
          p.srcWidth = img.width ∧ p.srcHeight = img.height ∧
          p.dst = (st.toBaseTemplate.tensorInfo X 0).buffer.devicePtr.add
            ((i : Int) * st.inputSize) ∧
          p.dstWidth = st.width ∧ p.dstHeight = st.height) := by
  obtain ⟨_, hfix, hsz, _, htot⟩ := packed_props X st images hnn hr
  have hfix3 : (st.copyPatched X images).fixed = st.fixed := hfix
  have hsz3 : ∀ j img, images[j]? = some img →
      (st.copyPatched X images).imageSize.get (0 + j) = img.bytes := by
    intro j img hj
    rw [Nat.zero_add]
    exact hsz j img hj
  obtain ⟨hH1, hH2, _, _, hH5, _⟩ :=
    forSlots_patchHost X images (st.copyPatched X images) 0 0 hsz3
  rw [patch_eq_patchHost X st images hc]
  refine ⟨hH5, ?_, ?_⟩
  · rw [hH1 0 (le_refl _)]
    have ht : toSizeT (forSlots (DeployCGTemplate.measure X) (st, 0) 0 images).2
        = packedOffset images images.length := by
      rw [htot]
      exact toSizeT_of_range _ (packedOffset_nonneg images hnn _) hr
    simp only [DeployCGTemplate.copyPatched, Graph.updateMemcpyNodeParams, if_true, ht]
  · intro i img hi
    obtain ⟨p, hp, hsrc, hw, hh, hdst, hdw, hdh⟩ := hH2 i img hi
    simp only [DeployCGTemplate.fixed, Prod.mk.injEq] at hfix3
    obtain ⟨_, _, hfw, hfh, hfi, hft⟩ := hfix3
    refine ⟨p, ?_, ?_, hw, hh, ?_, hdw.trans hfw, hdh.trans hfh⟩
    · rw [Nat.zero_add] at hp
      exact hp
    · rw [hsrc, zero_add]
      rfl
    · rw [hdst, Nat.zero_add, hfi]
      simp only [BaseTemplate.tensorInfo, hft]

/-- C14, as amended. Graph-replay engine, host-resident images: for a batch of exactly
`batch` images of sizes `s_i = width_i * height_i * 3 ≥ 0` whose sum is below `2 ^ 31` (it
is held in `int totalSize`), on an engine whose `inputSize` is `width * height * 3` as
`allocate` sets it, `predict` leaves (a) the bytes of image `i` in the pinned host region at offset
`sum_{j<i} s_j`, consecutive regions following one another, (b) node 0 patched as the bulk
copy of `sum_i s_i` bytes from the host side to the device side of the pinned buffer, (c)
node `i + 1` patched as the warp of slot `i`, reading at the device address plus
`sum_{j<i} s_j` an image of the width and height of image `i` and writing at the input
tensor address plus `i * (3 * width * height)` floats, and (d) after the launch the bytes of
image `i` at that offset of the device side.  The tables `imageSize` and `transforms` are
read and written as storage, whatever their size is. -/
theorem replay_host_packing (X : Externals F TM) (post : BaseTemplate F TM → Nat → R)
    (st : DeployCGTemplate F TM) (images : List Image)
    (hc : st.cudaMem = false) (hlen : (images.length : Int) = st.batch)
    (hin : st.inputSize = st.width * st.height * 3)
    (hnn : ∀ img ∈ images, 0 ≤ img.bytes)
    (hr : packedOffset images images.length < 2147483648) :
    (∀ i img, images[i]? = some img →
        packedOffset images (i + 1) = packedOffset images i + img.bytes ∧
        ∀ x, 0 ≤ x → x < img.bytes →
          (st.predict X post images).2.imageBuffer.host.asByte (packedOffset images i + x)
            = img.rgb x) ∧
      (st.predict X post images).2.graph.nodes 0
        = NodeParams.memcpy
            { host := (st.predict X post images).2.imageBuffer.hostPtr
              device := (st.predict X post images).2.imageBuffer.devicePtr
              bytes := packedOffset images images.length } ∧
      (∀ i img, images[i]? = some img → ∃ p,
        (st.predict X post images).2.graph.nodes (i + 1) = NodeParams.kernel p ∧
          p.src = (st.predict X post images).2.imageBuffer.devicePtr.add
            (packedOffset images i) ∧
          p.srcWidth = img.width ∧ p.srcHeight = img.height ∧
          p.dst = (st.toBaseTemplate.tensorInfo X 0).buffer.devicePtr.add
            ((i : Int) * (3 * st.width * st.height)) ∧
          p.dstWidth = st.width ∧ p.dstHeight = st.height) ∧
      (∀ i img, images[i]? = some img → ∀ x, 0 ≤ x → x < img.bytes →
        (st.predict X post images).2.imageBuffer.device.asByte (packedOffset images i + x)
          = img.rgb x) := by
  obtain ⟨hhost, _, _, _, _⟩ := packed_props X st images hnn hr
  obtain ⟨hbuf, hnode0, hnodes⟩ := patch_props X st images hc hnn hr
  obtain ⟨hL1, hL2⟩ := launch_props X (st.patch X images) images _ hnode0
  obtain ⟨hF1, hF2⟩ := replay_predict_state X post st images hlen
  rw [hF1, hF2, hL1, hL2, hbuf]
  refine ⟨?_, hnode0, ?_, ?_⟩
  · intro i img hi
    exact ⟨packedOffset_succ images i img hi, hhost i img hi⟩
  · intro i img hi
    obtain ⟨p, hp, hsrc, hw, hh, hdst, hdw, hdh⟩ := hnodes i img hi
    refine ⟨p, hp, hsrc, hw, hh, ?_, hdw, hdh⟩
    rw [hdst, hin]
    congr 1
    ring
  · intro i img hi x hx0 hx1
    have h0 := packedOffset_nonneg images hnn i
    have h1 := packedOffset_add_le images hnn i img hi
    rw [← packedOffset_length] at h1
    simp only [Region.memcpy]
    rw [if_pos ⟨by omega, by omega⟩]
    exact hhost i img hi x hx0 hx1


theorem replay_host_packing_witness :
    sampleReplayHost.inputSize = sampleReplayHost.width * sampleReplayHost.height * 3 ∧
      packedOffset [sampleImage, sampleImage] 2 = 24 ∧
      (sampleReplayHost.predict (sampleExternals true) (postProcessDet (sampleExternals true))
          [sampleImage, sampleImage]).2.graph.nodes 0
        = NodeParams.memcpy
            { host := (sampleReplayHost.predict (sampleExternals true)
                (postProcessDet (sampleExternals true))
                [sampleImage, sampleImage]).2.imageBuffer.hostPtr
              device := (sampleReplayHost.predict (sampleExternals true)
                (postProcessDet (sampleExternals true))
                [sampleImage, sampleImage]).2.imageBuffer.devicePtr
              bytes := packedOffset [sampleImage, sampleImage] 2 } ∧
      ∀ x, 0 ≤ x → x < sampleImage.bytes →
        (sampleReplayHost.predict (sampleExternals true)
          (postProcessDet (sampleExternals true))
          [sampleImage, sampleImage]).2.imageBuffer.host.asByte
            (packedOffset [sampleImage, sampleImage] 1 + x) = sampleImage.rgb x :=
  ⟨by decide, by decide,
    (replay_host_packing (sampleExternals true) (postProcessDet (sampleExternals true))
      sampleReplayHost [sampleImage, sampleImage] rfl (by decide) (by decide)
      (by intro img himg; simp at himg; subst himg; decide) (by decide)).2.1,
    ((replay_host_packing (sampleExternals true) (postProcessDet (sampleExternals true))
      sampleReplayHost [sampleImage, sampleImage] rfl (by decide) (by decide)
      (by intro img himg; simp at himg; subst himg; decide) (by decide)).1 1 sampleImage
      rfl).2⟩

/-- C14, the claim as stated fails when the sizes sum to `2 ^ 31` or more: for two images of
32768 × 16384 pixels, 1610612736 bytes each, `int totalSize` wraps to `-1073741824` and
node 0 is patched with that value converted to `size_t`, not with the 3221225472 bytes of
the two images. -/
theorem replay_host_packing_counterexample :
    sampleLargeImage.bytes = 1610612736 ∧
      packedOffset [sampleLargeImage, sampleLargeImage] 2 = 3221225472 ∧
      ((sampleReplayHost.predict (sampleExternals true)
          (postProcessDet (sampleExternals true))
          [sampleLargeImage, sampleLargeImage]).2.graph.nodes 0).copyBytes
        = some 18446744072635809792 := by
  decide

theorem allocateStep_foldl_extent (X : Externals F TM) (l : List Nat)
    (st : DeployCGTemplate F TM) :
    (l.foldl (DeployCGTemplate.allocateStep X) st).inputSize = st.inputSize ∧
      (l.foldl (DeployCGTemplate.allocateStep X) st).width = st.width ∧
      (l.foldl (DeployCGTemplate.allocateStep X) st).height = st.height := by
  induction l generalizing st with
  | nil => exact ⟨rfl, rfl, rfl⟩
  | cons i l ih =>
    rw [List.foldl_cons]
    exact ⟨(ih _).1.trans rfl, (ih _).2.1.trans rfl, (ih _).2.2.trans rfl⟩

theorem allocate_inputSize (X : Externals F TM) (st : DeployCGTemplate F TM) :
    (st.allocate X).inputSize = (st.allocate X).width * (st.allocate X).height * 3 := by
  unfold DeployCGTemplate.allocate
  simp only []
  rw [(allocateStep_foldl_extent X _ _).1, (allocateStep_foldl_extent X _ _).2.1,
    (allocateStep_foldl_extent X _ _).2.2]

end PackClaims


/-! ## The results of an accepted batch -/

section ResultClaims

variable {F TM R : Type}

end ResultClaims

end deploy
